import Mathlib

/-!
Verification development for the F4PGA build-system core
(`f4pga/__init__.py`): a shallow embedding of the dependency resolver
(planning phase), the build executor (execution phase) and their helper
functions, together with theorems checking the natural-language
specification against this embedding.

Conventions of the embedding:
* Python `str | list | dict` artifact path values become the inductive
  `DepPath`; Python `None` becomes `Option.none` at the use sites.
* The filesystem is a finite map from path strings to content signatures
  (`Fs`); only existence and byte-level identity of contents matter.
* Python dictionaries become ordered association lists with
  insertion-order-preserving update, mirroring `dict` semantics.
* Exceptions, `fatal` and `assert` failures become the `Err` sum; printed
  messages relevant to the specification become `Diag` values collected in
  the state.
* The recursive resolver and builder take explicit fuel; the Python code
  has no fuel and instead relies on `stages_checked` and the recursion
  structure, so every theorem either supplies sufficient fuel or is
  conditional on a non-fuel result.
-/

namespace F4PGA

/-! ## Ordered association lists (Python dict semantics) -/

/-- Lookup in an association list (models Python `dict.get`). -/
def lookupA {κ α : Type} [DecidableEq κ] (k : κ) : List (κ × α) → Option α
  | [] => none
  | (k2, v) :: rest => if k = k2 then some v else lookupA k rest

/-- Set a key, replacing in place if present (models Python `d[k] = v`,
which keeps insertion order for existing keys). -/
def setA {κ α : Type} [DecidableEq κ] (k : κ) (v : α) : List (κ × α) → List (κ × α)
  | [] => [(k, v)]
  | (k2, w) :: rest => if k = k2 then (k, v) :: rest else (k2, w) :: setA k v rest

/-- Remove a key (used to model `dict.pop` once presence is established). -/
def eraseA {κ α : Type} [DecidableEq κ] (k : κ) : List (κ × α) → List (κ × α)
  | [] => []
  | (k2, w) :: rest => if k = k2 then rest else (k2, w) :: eraseA k rest

/-- Merge a second association list into a first (models `dict.update`). -/
def updateA {κ α : Type} [DecidableEq κ] (m : List (κ × α)) : List (κ × α) → List (κ × α)
  | [] => m
  | (k, v) :: rest => updateA (setA k v m) rest

/-- Add an element to a list viewed as a set (models `set.add`). -/
def addOnce (x : String) (l : List String) : List String :=
  if x ∈ l then l else l ++ [x]

/-! ## Data model -/

/-- Artifact path value: the untyped recursive union used by the source
(`str` scalar path, `list` of values, `dict` mapping names to values). -/
inductive DepPath where
  | single (p : String)
  | seq (ps : List DepPath)
  | named (ps : List (String × DepPath))

/-- Python truthiness of a path value (empty string / list / dict are falsy). -/
def DepPath.truthy : DepPath → Bool
  | .single p => !(p == "")
  | .seq ps => !ps.isEmpty
  | .named ps => !ps.isEmpty

/-- Python truthiness of an optional path value (`None` is falsy). -/
def truthyO : Option DepPath → Bool
  | none => false
  | some d => d.truthy

/-- Requirement kind of a dependency: the source strings `req`, `maybe`,
`demand`. -/
inductive DepSpec where
  | req
  | maybe
  | demand
deriving DecidableEq, Repr

/-- Modelled from the spec: a Dependency Specification entry of a stage
(`f4pga/stage.py` is not part of the sources; spec section 3 defines it as
a name tagged with a requirement kind; the description field plays no role
in the engine). -/
structure DependencySpec where
  name : String
  spec : DepSpec
deriving DecidableEq, Repr

/-- Modelled from the spec: the declaration part of a Stage
(`f4pga/stage.py` is not part of the sources).  The module binding is kept
separately in `FlowConfig.modules`, keyed by stage name, so that stages
stay comparable; within one flow configuration stage names are unique
(they are keys of the `cfg.stages` dictionary), hence name equality is
object identity.  The mutable `value_overrides` bag lives in `FlowState`. -/
structure Stage where
  name : String
  takes : List DependencySpec
  produces : List DependencySpec
deriving DecidableEq, Repr

/-! ## Filesystem and content-hash cache -/

/-- Storage: a finite map from path to current content signature; absent
keys are files that do not exist. -/
abbrev Fs := List (String × Nat)

/-- Does a path exist on storage? -/
def fsExists (fs : Fs) (p : String) : Bool :=
  (lookupA p fs).isSome

/-- Modelled from the spec: the persistent state of the Staleness Oracle
(`f4pga/cache.py` is not part of the sources; spec sections 4.1 and 6 give
its contract).  It records, per (path, consumer) pair, the content
signature last recorded for that consumer. -/
abbrev F4Cache := List ((String × String) × Nat)

/-- Modelled from the spec: `status(path, consumer)` is `same` exactly when
the path exists and its current signature equals the recorded one for this
consumer; unknown pairs and absent paths read as differs.  Returns true for
`same`. -/
def get_status (fs : Fs) (c : F4Cache) (p consumer : String) : Bool :=
  match lookupA p fs, lookupA (p, consumer) c with
  | some h, some h2 => h == h2
  | _, _ => false

/-- Modelled from the spec: `record(path, consumer)` updates the recorded
signature to the current one and returns the prior comparison (true means
the pair differed before the update). -/
def cache_update (fs : Fs) (c : F4Cache) (p consumer : String) : Bool × F4Cache :=
  (!(get_status fs c p consumer),
   match lookupA p fs with
   | some h => setA (p, consumer) h c
   | none => eraseA (p, consumer) c)

/-! ## Errors and diagnostics -/

/-- Abnormal terminations of the engine.  Constructors carry the data that
the corresponding Python message interpolates. -/
inductive Err where
  | fatalMissingOutput (stage output : String)
  | fatalWrongPaths
  | reqTypeError
  | duplicateProvider (output firstStage secondStage : String)
  | keyError (k : String)
  | assertFailed
  | depNotProduced (dep provider : String)
  | outOfFuel
deriving DecidableEq, Repr

/-- Diagnostics printed by the engine that the specification mentions. -/
inductive Diag where
  | unreachableStage (stage take : String)
  | causesRebuild (take stage : String)
  | skipRebuild (dep : String)
  | unresolvedDep (dep : String)
  | targetReport (target : String)
deriving DecidableEq, Repr

/-! ## Helper functions of the source -/

/-- The reserved-key convention for storing a resolved path as a value. -/
def dep_value_str (dep : String) : String :=
  ":" ++ dep

mutual

/-- `req_exists`: checks whether a dependency exists on storage.  A string
is checked directly; a list is the conjunction over its elements, stopping
at the first missing one (Python evaluates `False in map(req_exists, r)`
lazily); any other value, including a dict, raises. -/
def req_exists (fs : Fs) : DepPath → Except Err Bool
  | .single r => .ok (fsExists fs r)
  | .seq rs => req_exists_list fs rs
  | .named _ => .error .reqTypeError

/-- List case of `req_exists`: short-circuits on the first element that
checks false, so a later ill-typed element is not reached. -/
def req_exists_list (fs : Fs) : List DepPath → Except Err Bool
  | [] => .ok true
  | r :: rs =>
    match req_exists fs r with
    | .error e => .error e
    | .ok false => .ok false
    | .ok true => req_exists_list fs rs

end

/-- `req_exists` applied to an optional value; `none` models passing Python
`None`, which falls into the same raising branch as any non-string,
non-list value. -/
def req_exists_opt (fs : Fs) : Option DepPath → Except Err Bool
  | some d => req_exists fs d
  | none => .error .reqTypeError

mutual

/-- `dep_differ`: does a dependency differ from its last recorded version
for the given consumer?  A missing path is treated as differing; lists and
dicts differ when any element does; any other value reads as unchanged. -/
def dep_differ (fs : Fs) (c : F4Cache) (consumer : String) : DepPath → Bool
  | .single p => if fsExists fs p then !(get_status fs c p consumer) else true
  | .seq ps => dep_differ_list fs c consumer ps
  | .named ps => dep_differ_named fs c consumer ps

/-- List case of `dep_differ`. -/
def dep_differ_list (fs : Fs) (c : F4Cache) (consumer : String) : List DepPath → Bool
  | [] => false
  | p :: ps => dep_differ fs c consumer p || dep_differ_list fs c consumer ps

/-- Dict case of `dep_differ` (iterates over the values). -/
def dep_differ_named (fs : Fs) (c : F4Cache) (consumer : String) : List (String × DepPath) → Bool
  | [] => false
  | (_, p) :: ps => dep_differ fs c consumer p || dep_differ_named fs c consumer ps

end

/-- `dep_will_differ`: a dependency will differ if its providing stage is
already scheduled to run, or if its content differs from the last version
recorded for the consumer. -/
def dep_will_differ (os_map : List (String × Stage)) (run_stages : List String)
    (fs : Fs) (c : F4Cache) (target : String) (paths : DepPath) (consumer : String) : Bool :=
  match lookupA target os_map with
  | some provider => run_stages.contains provider.name || dep_differ fs c consumer paths
  | none => dep_differ fs c consumer paths

/-- `update_dep_statuses`: records the current signature of a dependency
for a consumer and returns whether it differed.  Faithfully reproduces the
source loop, which returns from inside `for p in paths:` on the first
iteration, so for lists and dicts only the first element is processed, and
an empty list or dict falls through to `fatal` (WRONG PATHS TYPE). -/
def update_dep_statuses (fs : Fs) (c : F4Cache) (consumer : String) : DepPath → Except Err (Bool × F4Cache)
  | .single p => .ok (cache_update fs c p consumer)
  | .seq [] => .error .fatalWrongPaths
  | .seq (p :: _) => update_dep_statuses fs c consumer p
  | .named [] => .error .fatalWrongPaths
  | .named ((_, p) :: _) => update_dep_statuses fs c consumer p

/-- `update_dep_statuses` applied to an optional value; `None` falls
through every type test to `fatal`. -/
def update_dep_statuses_opt (fs : Fs) (c : F4Cache) (consumer : String) :
    Option DepPath → Except Err (Bool × F4Cache)
  | some d => update_dep_statuses fs c consumer d
  | none => .error .fatalWrongPaths

/-- Inner loop of `map_outputs_to_stages`: registers every declared output
of one stage, first writer wins; a second distinct stage for a name raises. -/
def register_outputs (stage : Stage) : List DependencySpec → List (String × Stage) →
    Except Err (List (String × Stage))
  | [], m => .ok m
  | o :: os, m =>
    match lookupA o.name m with
    | none => register_outputs stage os (setA o.name stage m)
    | some s =>
      if s = stage then register_outputs stage os m
      else .error (.duplicateProvider o.name s.name stage.name)

/-- Fold of `map_outputs_to_stages` over the stage list. -/
def map_outputs_to_stages_from (m : List (String × Stage)) : List Stage →
    Except Err (List (String × Stage))
  | [] => .ok m
  | s :: ss =>
    match register_outputs s s.produces m with
    | .error e => .error e
    | .ok m2 => map_outputs_to_stages_from m2 ss

/-- `map_outputs_to_stages`: associates every declared output name with its
producing stage (the os_map); a name produced by two distinct stages is a
fatal configuration error. -/
def map_outputs_to_stages (stages : List Stage) : Except Err (List (String × Stage)) :=
  map_outputs_to_stages_from [] stages

/-- `filter_existing_deps`: keeps the explicit dependency overrides whose
paths exist on storage; an override of an unsupported shape raises. -/
def filter_existing_deps (fs : Fs) : List (String × DepPath) → Except Err (List (String × DepPath))
  | [] => .ok []
  | (n, p) :: rest =>
    match req_exists fs p with
    | .error e => .error e
    | .ok b =>
      match filter_existing_deps fs rest with
      | .error e => .error e
      | .ok r => .ok (if b then (n, p) :: r else r)

/-! ## Modules and flow configuration (external collaborators) -/

/-- The configuration handed to a module run: the `takes`, `produces` and
`values` mappings built by `prepare_stage_input` (the share and binary
directory fields play no role in the engine). -/
structure ModRunCtx where
  takes : List (String × DepPath)
  produces : List (String × DepPath)
  values : List (String × Option DepPath)

/-- Modelled from the spec: a module (`f4pga/module.py` and
`f4pga/module_runner.py` are not part of the sources; spec section 6 gives
the contract).  `map` is the cheap output-path prediction (`module_map`);
`exec` is the expensive execution operation (`module_exec`), modelled by
its effect on storage. -/
structure Module where
  map : ModRunCtx → List (String × Option DepPath)
  exec : ModRunCtx → Fs → Fs

/-- Modelled from the spec: the slice of `FlowConfig`
(`f4pga/flow_config.py` is not part of the sources) that the engine reads:
the stage list, the module bound to each stage name, the explicit
dependency path overrides, and the per-stage configuration values. -/
structure FlowConfig where
  stages : List Stage
  modules : String → Module
  dependency_overrides : List (String × DepPath)
  stage_values : String → List (String × Option DepPath)

/-- First half of `prepare_stage_input`: the takes mapping keeps only
truthy resolved paths. -/
def prep_takes (dep_paths : List (String × Option DepPath)) :
    List DependencySpec → List (String × DepPath)
  | [] => []
  | t :: ts =>
    match (lookupA t.name dep_paths).join with
    | some p =>
      if p.truthy then (t.name, p) :: prep_takes dep_paths ts
      else prep_takes dep_paths ts
    | none => prep_takes dep_paths ts

/-- Second half of `prepare_stage_input`: a produced path comes from the
resolved paths if truthy there, else from the explicit config paths. -/
def prep_produces (dep_paths : List (String × Option DepPath))
    (config_paths : List (String × DepPath)) :
    List DependencySpec → List (String × DepPath)
  | [] => []
  | p :: ps =>
    let rest := prep_produces dep_paths config_paths ps
    let fromCfg : List (String × DepPath) :=
      match lookupA p.name config_paths with
      | some w => if w.truthy then [(p.name, w)] else []
      | none => []
    match (lookupA p.name dep_paths).join with
    | some v => if v.truthy then (p.name, v) :: rest else fromCfg ++ rest
    | none => fromCfg ++ rest

/-- `prepare_stage_input` followed by `config_mod_runctx`: builds the
module run configuration from the stage declaration, the merged values,
the resolved dependency paths and the explicit config paths. -/
def config_mod_runctx (stage : Stage) (values : List (String × Option DepPath))
    (dep_paths : List (String × Option DepPath))
    (config_paths : List (String × DepPath)) : ModRunCtx :=
  { takes := prep_takes dep_paths stage.takes
  , produces := prep_produces dep_paths config_paths stage.produces
  , values := values }

/-- `get_stage_values_override`: a copy of the global values updated with
the stage value overrides. -/
def get_stage_values_override (og_values : List (String × Option DepPath))
    (ovds : List (String × Option DepPath)) : List (String × Option DepPath) :=
  updateA og_values ovds

/-! ## Flow state -/

/-- The mutable state of one `Flow` instance, plus instrumentation: the
`diags` log of specification-relevant messages and the `execs` log of
stage names whose module execute operation ran. -/
structure FlowState where
  os_map : List (String × Stage)
  dep_paths : List (String × Option DepPath)
  run_stages : List String
  deps_rebuilds : List (String × Nat)
  value_overrides : List (String × List (String × Option DepPath))
  stages_checked : List String
  skip_dep_warnings : List String
  fs : Fs
  f4cache : Option F4Cache
  diags : List Diag
  execs : List String

/-- The value-override bag of one stage (missing stages read as empty). -/
def ovd_get (sname : String)
    (ovds : List (String × List (String × Option DepPath))) : List (String × Option DepPath) :=
  (lookupA sname ovds).getD []

/-- Write one entry into the value-override bag of one stage. -/
def ovd_set (sname key : String) (v : Option DepPath)
    (ovds : List (String × List (String × Option DepPath))) :
    List (String × List (String × Option DepPath)) :=
  setA sname (setA key v (ovd_get sname ovds)) ovds

/-- `Flow._dep_will_differ`: with caching disabled every query reports
differs; otherwise defer to `dep_will_differ`. -/
def FlowState.dep_will_differ_checked (st : FlowState) (dep : String) (paths : DepPath)
    (consumer : String) : Bool :=
  match st.f4cache with
  | none => true
  | some c => dep_will_differ st.os_map st.run_stages st.fs c dep paths consumer

/-! ## Dependency resolver (planning phase) -/

/-- Lines 344 to 348 of the source: for every predicted output that exists,
register it with the cache.  `req_exists` is evaluated (and may raise) for
every non-None prediction; the registration itself (`_process_dep_path`,
which hashes the file) has no observable effect on the oracle model, whose
`status` reads current content directly from storage. -/
def cache_outputs_preexisting (fs : Fs) : List (String × Option DepPath) → Except Err Unit
  | [] => .ok ()
  | (_, none) :: rest => cache_outputs_preexisting fs rest
  | (_, some op) :: rest =>
    match req_exists fs op with
    | .error e => .error e
    | .ok _ => cache_outputs_preexisting fs rest

/-- Lines 353 to 355 of the source: for every predicted output that does
not exist on storage, add the providing stage to the run set. -/
def add_run_for_missing_outputs (provider : Stage) :
    List (String × Option DepPath) → FlowState → Except Err FlowState
  | [], st => .ok st
  | (_, none) :: rest, st => add_run_for_missing_outputs provider rest st
  | (_, some op) :: rest, st =>
    match req_exists st.fs op with
    | .error e => .error e
    | .ok ex =>
      let st := if ex then st
        else { st with run_stages := addOnce provider.name st.run_stages }
      add_run_for_missing_outputs provider rest st

/-- Lines 357 to 374 of the source: verify the module promise.  A declared
output absent from the prediction is a fatal configuration error when it is
required, or on-demand and explicitly overridden; otherwise it is popped
from the os_map (a second pop of the same name raises KeyError).  Every
produced output is additionally written into the value overrides. -/
def verify_outputs (cfg : FlowConfig) (provider : Stage)
    (outputs : List (String × Option DepPath)) :
    List DependencySpec → FlowState → Except Err FlowState
  | [], st => .ok st
  | o :: os, st =>
    let afterPop : Except Err FlowState :=
      if (lookupA o.name outputs).isNone then
        if o.spec = .req ∨ (o.spec = .demand ∧ (lookupA o.name cfg.dependency_overrides).isSome) then
          .error (.fatalMissingOutput provider.name o.name)
        else
          match lookupA o.name st.os_map with
          | none => .error (.keyError o.name)
          | some _ => .ok { st with os_map := eraseA o.name st.os_map }
      else .ok st
    match afterPop with
    | .error e => .error e
    | .ok st =>
      let st :=
        match (lookupA o.name outputs).join with
        | some v =>
          { st with value_overrides :=
              ovd_set provider.name (dep_value_str o.name) (some v) st.value_overrides }
        | none => st
      verify_outputs cfg provider outputs os st

/-- Lines 340 to 374 of the source: the tail of `_resolve_dependencies`
after the takes loop, from the module map call to the promise check. -/
def resolve_finish (cfg : FlowConfig) (provider : Stage) (st : FlowState) :
    Except Err FlowState :=
  let values := get_stage_values_override (cfg.stage_values provider.name)
    (ovd_get provider.name st.value_overrides)
  let ctx := config_mod_runctx provider values st.dep_paths cfg.dependency_overrides
  let outputs := (cfg.modules provider.name).map ctx
  match cache_outputs_preexisting st.fs outputs with
  | .error e => .error e
  | .ok _ =>
    let st := { st with
      stages_checked := st.stages_checked ++ [provider.name]
      dep_paths := updateA st.dep_paths outputs }
    match add_run_for_missing_outputs provider outputs st with
    | .error e => .error e
    | .ok st => verify_outputs cfg provider outputs provider.produces st

/-- Lines 296 to 297 of the source: initialize the rebuild counter of a
dependency on first sight. -/
def init_rebuild_counter (dep : String) (st0 : FlowState) : FlowState :=
  if (lookupA dep st0.deps_rebuilds).isNone
  then { st0 with deps_rebuilds := setA dep 0 st0.deps_rebuilds } else st0

/-- Lines 322 to 329 of the source: the will-cause-rebuild verdict for one
input of the stage being resolved.  False when the path is absent (None);
true unconditionally when the path resolves but does not exist on storage;
otherwise deferred to `Flow._dep_will_differ`. -/
def will_cause_rebuild (st : FlowState) (take : DependencySpec) (provider : Stage) :
    Except Err Bool :=
  match (lookupA take.name st.dep_paths).join with
  | none => .ok false
  | some tp =>
    match req_exists st.fs tp with
    | .error e => .error e
    | .ok true => .ok (st.dep_will_differ_checked take.name tp provider.name)
    | .ok false => .ok true

/-- Lines 332 to 338 of the source: the effect of a true will-cause-rebuild
verdict: a one-time diagnostic per artifact name, the provider is added to
the run set, and the rebuild counter of the input (already initialized, at
value k) is incremented. -/
def mark_rebuild (provider : Stage) (takeName : String) (k : Nat) (st : FlowState) : FlowState :=
  let st :=
    if takeName ∈ st.skip_dep_warnings then st
    else { st with
      diags := st.diags ++ [.causesRebuild takeName provider.name]
      skip_dep_warnings := st.skip_dep_warnings ++ [takeName] }
  { st with
    run_stages := addOnce provider.name st.run_stages
    deps_rebuilds := setA takeName (k + 1) st.deps_rebuilds }

mutual

/-- `Flow._resolve_dependencies`: walks from a dependency to its providing
stage, resolves the stage inputs first, predicts the stage outputs, and
records staleness.  Fuel-indexed; the Python recursion terminates through
`stages_checked` instead. -/
def resolve_dependencies (cfg : FlowConfig) : Nat → String → FlowState → Except Err FlowState
  | 0, _, _ => .error .outOfFuel
  | fuel + 1, dep, st0 =>
    let st := init_rebuild_counter dep st0
    let paths := (lookupA dep st.dep_paths).join
    if truthyO paths ∧ (lookupA dep st.os_map).isNone then .ok st
    else
      match lookupA dep st.os_map with
      | none => .ok st
      | some provider =>
        if provider.name ∈ st.stages_checked then .ok st
        else
          match resolve_takes cfg fuel provider provider.takes st with
          | .error e => .error e
          | .ok (cont, st) =>
            if cont then resolve_finish cfg provider st else .ok st

/-- The takes loop of `_resolve_dependencies` (lines 310 to 338): resolve
each input recursively, stash its path into the value overrides, abandon
the stage on an unresolved required input, and otherwise mark staleness.
Returns false when resolution of the stage was abandoned. -/
def resolve_takes (cfg : FlowConfig) : Nat → Stage → List DependencySpec → FlowState →
    Except Err (Bool × FlowState)
  | 0, _, _, _ => .error .outOfFuel
  | _ + 1, _, [], st => .ok (true, st)
  | fuel + 1, provider, take :: rest, st0 =>
    match resolve_dependencies cfg fuel take.name st0 with
    | .error e => .error e
    | .ok st =>
      let take_paths := (lookupA take.name st.dep_paths).join
      let vo := ovd_set provider.name (dep_value_str take.name) take_paths st.value_overrides
      let st := { st with value_overrides := vo }
      if ¬ truthyO take_paths ∧ take.spec = .req then
        .ok (false, { st with diags := st.diags ++ [.unreachableStage provider.name take.name] })
      else
        match will_cause_rebuild st take provider with
        | .error e => .error e
        | .ok will_differ =>
          if will_differ then
            match lookupA take.name st.deps_rebuilds with
            | none => .error (.keyError take.name)
            | some k =>
              resolve_takes cfg fuel provider rest (mark_rebuild provider take.name k st)
          else
            resolve_takes cfg fuel provider rest st

end

/-! ## Build executor (execution phase) -/

/-- Lines 453 to 458 of the source: the post-execution product loop.  For
each declared product, when its spec is required the source re-checks
`req_exists(paths)` of the dependency currently being built (not of the
product) and raises `DependencyNotProducedException(dep, provider)` when it
fails; then `self.dep_paths[product.name]` is read (KeyError when absent)
and, when not None, `req_exists(paths)` is evaluated again before the
cache registration (a no-op on the oracle model). -/
def post_products (provider : Stage) (dep : String) (pv : DepPath) :
    List DependencySpec → FlowState → Except Err FlowState
  | [], st => .ok st
  | product :: rest, st =>
    let promise : Except Err Unit :=
      if product.spec = .req then
        match req_exists st.fs pv with
        | .error e => .error e
        | .ok true => .ok ()
        | .ok false => .error (.depNotProduced dep provider.name)
      else .ok ()
    match promise with
    | .error e => .error e
    | .ok _ =>
      match lookupA product.name st.dep_paths with
      | none => .error (.keyError product.name)
      | some prod_paths =>
        match prod_paths with
        | some _ =>
          match req_exists st.fs pv with
          | .error e => .error e
          | .ok _ => post_products provider dep pv rest st
        | none => post_products provider dep pv rest st

mutual

/-- `Flow._build_dep`: builds one dependency depth-first.  An unresolved
dependency reports failure; an existing dependency whose provider is not
scheduled succeeds immediately; otherwise the inputs are built and
update-compared, the stage is skipped when nothing differed and the
dependency exists, and else the module execute operation runs followed by
the promise check.  Returns whether the dependency was built. -/
def build_dep (cfg : FlowConfig) : Nat → String → FlowState → Except Err (Bool × FlowState)
  | 0, _, _ => .error .outOfFuel
  | fuel + 1, dep, st =>
    let paths := (lookupA dep st.dep_paths).join
    let provider? := lookupA dep st.os_map
    let run :=
      match provider? with
      | some p => st.run_stages.contains p.name
      | none => false
    match paths with
    | none => .ok (false, { st with diags := st.diags ++ [.unresolvedDep dep] })
    | some pv =>
      if !pv.truthy then .ok (false, { st with diags := st.diags ++ [.unresolvedDep dep] })
      else
        match req_exists st.fs pv with
        | .error e => .error e
        | .ok ex =>
          if ex && !run then .ok (true, st)
          else
            match provider? with
            | none => .error .assertFailed
            | some provider =>
              match build_takes cfg fuel provider provider.takes st.f4cache.isNone st with
              | .error e => .error e
              | .ok (any_dep_differ, st) =>
                match req_exists st.fs pv with
                | .error e => .error e
                | .ok ex2 =>
                  if !any_dep_differ && ex2 then
                    .ok (true, { st with diags := st.diags ++ [.skipRebuild dep] })
                  else
                    let values := get_stage_values_override (cfg.stage_values provider.name)
                      (ovd_get provider.name st.value_overrides)
                    let ctx := config_mod_runctx provider values st.dep_paths
                      cfg.dependency_overrides
                    let st := { st with
                      fs := (cfg.modules provider.name).exec ctx st.fs
                      execs := st.execs ++ [provider.name] }
                    let st := { st with run_stages := st.run_stages.erase provider.name }
                    match post_products provider dep pv provider.produces st with
                    | .error e => .error e
                    | .ok st => .ok (true, st)

/-- The input loop of `_build_dep` (lines 424 to 432): build each input
recursively; a failed required input is an assertion failure, a failed
optional input is skipped; each built input is update-compared against the
cache (when enabled) and its differ verdict is or-accumulated. -/
def build_takes (cfg : FlowConfig) : Nat → Stage → List DependencySpec → Bool → FlowState →
    Except Err (Bool × FlowState)
  | 0, _, _, _, _ => .error .outOfFuel
  | _ + 1, _, [], adf, st => .ok (adf, st)
  | fuel + 1, provider, p_dep :: rest, adf, st0 =>
    match build_dep cfg fuel p_dep.name st0 with
    | .error e => .error e
    | .ok (built, st) =>
      if !built then
        if p_dep.spec = .req then .error .assertFailed
        else build_takes cfg fuel provider rest adf st
      else
        match st.f4cache with
        | some c =>
          match lookupA p_dep.name st.dep_paths with
          | none => .error (.keyError p_dep.name)
          | some v? =>
            match update_dep_statuses_opt st.fs c provider.name v? with
            | .error e => .error e
            | .ok (d, c2) =>
              build_takes cfg fuel provider rest (adf || d) { st with f4cache := some c2 }
        | none => build_takes cfg fuel provider rest adf st

end

/-! ## Flow construction and execution -/

/-- `Flow.__init__`: builds the os_map, seeds the resolved paths with the
explicit overrides that exist on storage (registering them with the cache
is a no-op on the oracle model), and runs the resolution pass from the
target with fresh visited and warning sets. -/
def flow_init (cfg : FlowConfig) (target : String) (fs : Fs) (f4cache : Option F4Cache)
    (fuel : Nat) : Except Err FlowState :=
  match map_outputs_to_stages cfg.stages with
  | .error e => .error e
  | .ok osm =>
    match filter_existing_deps fs cfg.dependency_overrides with
    | .error e => .error e
    | .ok deps =>
      let st : FlowState := {
        os_map := osm
        dep_paths := deps.map (fun nv => (nv.1, some nv.2))
        run_stages := []
        deps_rebuilds := []
        value_overrides := []
        stages_checked := []
        skip_dep_warnings := []
        fs := fs
        f4cache := f4cache
        diags := []
        execs := [] }
      resolve_dependencies cfg fuel target st

/-- `Flow.execute`: build the target, then (with caching enabled) register
the final target path under the reserved `__target` consumer, and report
the resolved target path (a KeyError when the target has no entry). -/
def flow_execute (cfg : FlowConfig) (target : String) (fuel : Nat) (st : FlowState) :
    Except Err FlowState :=
  match build_dep cfg fuel target st with
  | .error e => .error e
  | .ok (_, st) =>
    let afterCache : Except Err FlowState :=
      match st.f4cache with
      | some c =>
        match lookupA target st.dep_paths with
        | none => .error (.keyError target)
        | some v? =>
          match update_dep_statuses_opt st.fs c "__target" v? with
          | .error e => .error e
          | .ok (_, c2) => .ok { st with f4cache := some c2 }
      | none => .ok st
    match afterCache with
    | .error e => .error e
    | .ok st =>
      match lookupA target st.dep_paths with
      | none => .error (.keyError target)
      | some _ => .ok { st with diags := st.diags ++ [.targetReport target] }

/-- One full run: construct the Flow (which resolves) and execute it. -/
def runFlow (cfg : FlowConfig) (target : String) (fs : Fs) (f4cache : Option F4Cache)
    (fuel : Nat) : Except Err FlowState :=
  match flow_init cfg target fs f4cache fuel with
  | .error e => .error e
  | .ok st => flow_execute cfg target fuel st

/-- Two consecutive runs of the same target: the second Flow is constructed
from the storage and persisted cache state left by the first (nothing
changes in between). -/
def runTwice (cfg : FlowConfig) (target : String) (fs : Fs) (f4cache : Option F4Cache)
    (fuel : Nat) : Except Err FlowState :=
  match runFlow cfg target fs f4cache fuel with
  | .ok st => runFlow cfg target st.fs st.f4cache fuel
  | .error e => .error e

/-! ## Result projections (used to state concrete evaluations) -/

/-- Did the run complete without an exception? -/
def isOkB : Except Err FlowState → Bool
  | .ok _ => true
  | .error _ => false

/-- The log of module execute invocations of a completed run. -/
def execsOf : Except Err FlowState → List String
  | .ok st => st.execs
  | .error _ => []

/-- The diagnostics of a completed run. -/
def diagsOf : Except Err FlowState → List Diag
  | .ok st => st.diags
  | .error _ => []

/-- The run set of a completed planning or execution state. -/
def runSetOf : Except Err FlowState → List String
  | .ok st => st.run_stages
  | .error _ => []

/-- The final storage of a completed run. -/
def fsOf : Except Err FlowState → Fs
  | .ok st => st.fs
  | .error _ => []

/-- The final resolved-paths table of a completed run. -/
def depPathsOf : Except Err FlowState → List (String × Option DepPath)
  | .ok st => st.dep_paths
  | .error _ => []

/-- The ownership map of a completed planning or execution state. -/
def osMapOf : Except Err FlowState → List (String × Stage)
  | .ok st => st.os_map
  | .error _ => []

/-! ## Concrete flow configurations used by counterexamples and witnesses -/

/-- A module whose prediction is a constant mapping and whose execution
writes a fixed set of files (deterministic; predictions consistent with
execution wherever a scenario needs that). -/
def constModule (outs : List (String × Option DepPath)) (writes : List (String × Nat)) : Module :=
  { map := fun _ => outs
  , exec := fun _ fs => updateA fs writes }

/-- Shorthand for a dependency specification entry. -/
def mkDS (n : String) (s : DepSpec) : DependencySpec :=
  ⟨n, s⟩

/-- C2 scenario, stage S: takes x (required), produces y at path p. -/
def stageC2S : Stage := ⟨"S", [mkDS "x" .req], [mkDS "y" .req]⟩

/-- C2 scenario, stage C: takes z (required), produces c at path pc. -/
def stageC2C : Stage := ⟨"C", [mkDS "z" .req], [mkDS "c" .req]⟩

/-- C2 scenario, stage T: takes c (maybe) and y (required), produces the
target t at path pt. -/
def stageC2T : Stage := ⟨"T", [mkDS "c" .maybe, mkDS "y" .req], [mkDS "t" .req]⟩

/-- C2 scenario configuration: the explicit override for z points at the
same physical path p that stage S writes its output y to, and that path
does not exist before the first run. -/
def cfgC2 : FlowConfig := {
  stages := [stageC2S, stageC2C, stageC2T]
  modules := fun n =>
    if n = "S" then constModule [("y", some (.single "p"))] [("p", 1)]
    else if n = "C" then constModule [("c", some (.single "pc"))] [("pc", 5)]
    else constModule [("t", some (.single "pt"))] [("pt", 2)]
  dependency_overrides := [("x", .single "px"), ("z", .single "p")]
  stage_values := fun _ => [] }

/-- C2 scenario initial storage: only the static source x exists. -/
def fsC2 : Fs := [("px", 7)]

/-- C7 scenario, stage A: no inputs, produces y at an existing path. -/
def stageC7A : Stage := ⟨"A", [], [mkDS "y" .req]⟩

/-- C7 scenario, stage B: takes y (required), produces the target t. -/
def stageC7B : Stage := ⟨"B", [mkDS "y" .req], [mkDS "t" .req]⟩

/-- C7 scenario configuration (run with caching disabled). -/
def cfgC7 : FlowConfig := {
  stages := [stageC7A, stageC7B]
  modules := fun n =>
    if n = "A" then constModule [("y", some (.single "py"))] [("py", 1)]
    else constModule [("t", some (.single "pt"))] [("pt", 2)]
  dependency_overrides := []
  stage_values := fun _ => [] }

/-- C7 scenario storage: both outputs already exist and are up to date. -/
def fsC7 : Fs := [("py", 1), ("pt", 2)]

/-- C3 scenario, stage P: takes a (maybe, resolvable, stale) before b
(required, unresolvable), produces o. -/
def stageC3P : Stage := ⟨"P", [mkDS "a" .maybe, mkDS "b" .req], [mkDS "o" .req]⟩

/-- C3 scenario configuration: a has an explicit existing path and a cold
cache entry, b has no producer and no path. -/
def cfgC3 : FlowConfig := {
  stages := [stageC3P]
  modules := fun _ => constModule [("o", some (.single "po"))] [("po", 3)]
  dependency_overrides := [("a", .single "pa")]
  stage_values := fun _ => [] }

/-- C3 scenario storage. -/
def fsC3 : Fs := [("pa", 4)]

/-- C5 scenario, stage P: takes x, promises two required outputs y1, y2. -/
def stageC5P : Stage := ⟨"P", [mkDS "x" .req], [mkDS "y1" .req, mkDS "y2" .req]⟩

/-- C5 scenario configuration: the module predicts both outputs but its
execution writes only y1, breaking the promise on y2. -/
def cfgC5 : FlowConfig := {
  stages := [stageC5P]
  modules := fun _ =>
    constModule [("y1", some (.single "py1")), ("y2", some (.single "py2"))] [("py1", 9)]
  dependency_overrides := [("x", .single "px")]
  stage_values := fun _ => [] }

/-- C5 scenario storage. -/
def fsC5 : Fs := [("px", 1)]

/-- Follows the claim text of C6 (and lines 361 to 362 of the source): a
declared output absent from the prediction is fatal when it is required,
or on-demand and explicitly requested via a dependency override. -/
def fatal_absent (cfg : FlowConfig) (o : DependencySpec) : Prop :=
  o.spec = .req ∨ (o.spec = .demand ∧ (lookupA o.name cfg.dependency_overrides).isSome)

/-- Execution state for the C1 witness: dependency d resolved to an
existing path, its provider A (no inputs) scheduled in the run set,
caching enabled. -/
def stC1 : FlowState :=
  { os_map := [("d", stageC7A)]
    dep_paths := [("d", some (.single "pd"))]
    run_stages := ["A"]
    deps_rebuilds := []
    value_overrides := []
    stages_checked := []
    skip_dep_warnings := []
    fs := [("pd", 1)]
    f4cache := some []
    diags := []
    execs := [] }

/-- A small planning state for exercising the will-cause-rebuild verdict:
no providers, preset rebuild counters, storage and cache as given. -/
def mkStateC4 (dp : List (String × Option DepPath)) (fs : Fs) (c : Option F4Cache) : FlowState :=
  { os_map := []
    dep_paths := dp
    run_stages := []
    deps_rebuilds := [("x", 0), ("m", 0)]
    value_overrides := []
    stages_checked := []
    skip_dep_warnings := []
    fs := fs
    f4cache := c
    diags := []
    execs := [] }

/-- C4 state: input m has no resolved path. -/
def stC4none : FlowState := mkStateC4 [] [] (some [])

/-- C4 state: input x resolves to px, which does not exist on storage. -/
def stC4missing : FlowState := mkStateC4 [("x", some (.single "px"))] [] (some [])

/-- C4 state: input x resolves to px, which exists with a cold cache. -/
def stC4exists : FlowState := mkStateC4 [("x", some (.single "px"))] [("px", 1)] (some [])

/-- C4 state: input x resolves to px, which exists and is recorded current
for consumer S. -/
def stC4same : FlowState :=
  mkStateC4 [("x", some (.single "px"))] [("px", 1)] (some [(("px", "S"), 1)])

/-- Stage for the C6 witness: declares a required output a and a maybe
output b. -/
def stageC6M : Stage := ⟨"M", [], [mkDS "a" .req, mkDS "b" .maybe]⟩

/-- Planning state for the C6 witness: the ownership map registers both
declared outputs of stage M. -/
def stC6 : FlowState :=
  { os_map := [("a", stageC6M), ("b", stageC6M)]
    dep_paths := []
    run_stages := []
    deps_rebuilds := []
    value_overrides := []
    stages_checked := []
    skip_dep_warnings := []
    fs := []
    f4cache := some []
    diags := []
    execs := [] }

/-- Planning state for the C3 witness: the target o is owned by stage P,
nothing is resolved, caching enabled, nothing checked yet. -/
def stC3w0 : FlowState :=
  { os_map := [("o", stageC3P)]
    dep_paths := []
    run_stages := []
    deps_rebuilds := []
    value_overrides := []
    stages_checked := []
    skip_dep_warnings := []
    fs := []
    f4cache := some []
    diags := []
    execs := [] }

/-- A state with caching disabled and nothing else. -/
def stC7n : FlowState := mkStateC4 [] [] none

/-- Execution state for the C7 witness: both dependencies of the C7
scenario resolved, storage up to date, caching disabled, stage B
scheduled. -/
def stC7run : FlowState :=
  { os_map := [("y", stageC7A), ("t", stageC7B)]
    dep_paths := [("y", some (.single "py")), ("t", some (.single "pt"))]
    run_stages := ["B"]
    deps_rebuilds := []
    value_overrides := []
    stages_checked := []
    skip_dep_warnings := []
    fs := fsC7
    f4cache := none
    diags := []
    execs := [] }

/-- C2 witness scenario, stage W: no inputs, produces w at path pw. -/
def stageW : Stage := ⟨"W", [], [mkDS "w" .req]⟩

/-- C2 witness configuration: the single stage W, no overrides. -/
def cfgW : FlowConfig := {
  stages := [stageW]
  modules := fun _ => constModule [("w", some (.single "pw"))] [("pw", 5)]
  dependency_overrides := []
  stage_values := fun _ => [] }

/-- C2 witness storage: the output of W exists with its current content. -/
def fsW : Fs := [("pw", 5)]

/-- C2 witness cache: the output of W is recorded current for consumer W. -/
def cW : F4Cache := [(("pw", "W"), 5)]

/-- C9 scenario storage: paths a and b exist with current contents. -/
def fsC9 : Fs := [("a", 1), ("b", 2)]

/-- C9 scenario cache: for consumer W, a is recorded as current while b is
recorded with a stale signature. -/
def cacheC9 : F4Cache := [(("a", "W"), 1), (("b", "W"), 99)]

/-- Checks the final state of the C5 run: the run succeeded, the promised
required output y2 resolved to path py2, that path does not exist on
storage after execution, the produced y1 does exist, and exactly stage P
executed. -/
def c5_post_check : Bool :=
  match runFlow cfgC5 "y1" fsC5 (some []) 40 with
  | .ok st =>
    (match lookupA "y2" st.dep_paths with
     | some (some (.single s)) => s == "py2"
     | _ => false)
    && !(fsExists st.fs "py2") && fsExists st.fs "py1" && (st.execs == ["P"])
  | .error _ => false

/-! ## Claim-side definitions (stated from the specification text, for
comparison with the source functions) -/

mutual

/-- Follows the claim text of C10: path values built from strings and
lists only (no named mapping anywhere inside). -/
def specStrListOnly : DepPath → Bool
  | .single _ => true
  | .seq ps => specStrListOnly_list ps
  | .named _ => false

/-- List case of `specStrListOnly`. -/
def specStrListOnly_list : List DepPath → Bool
  | [] => true
  | p :: ps => specStrListOnly p && specStrListOnly_list ps

end

mutual

/-- Follows the claim text of C10: the total existence semantics on
string-and-list values; a string checks storage, a list is the conjunction
over its elements (true for the empty list). -/
def specAllExists (fs : Fs) : DepPath → Bool
  | .single p => fsExists fs p
  | .seq ps => specAllExists_list fs ps
  | .named _ => false

/-- List case of `specAllExists`. -/
def specAllExists_list (fs : Fs) : List DepPath → Bool
  | [] => true
  | p :: ps => specAllExists fs p && specAllExists_list fs ps

end

/-- Follows the claim text of C4: is the producing stage of this artifact
already in the run set? -/
def provider_in_run_set (st : FlowState) (depName : String) : Bool :=
  match lookupA depName st.os_map with
  | some provider => st.run_stages.contains provider.name
  | none => false

/-- Follows the claim text of C4 (together with the C7 sentence that a
disabled cache reports differs unconditionally): the verdict of the
Staleness Oracle for a path value and a consumer. -/
def oracle_differs (st : FlowState) (paths : DepPath) (consumer : String) : Bool :=
  match st.f4cache with
  | none => true
  | some c => dep_differ st.fs c consumer paths

/-- Line 316 of the source: the state after stashing the resolved path of
one input into the value overrides of the providing stage under the
reserved key. -/
def stash_take_path (provider : Stage) (takeName : String) (st : FlowState) : FlowState :=
  let vo := ovd_set provider.name (dep_value_str takeName)
    ((lookupA takeName st.dep_paths).join) st.value_overrides
  { st with value_overrides := vo }

/-- The path values that can ever appear in the resolved-paths table of a
flow: explicit dependency overrides and module predictions. -/
def ValOf (cfg : FlowConfig) (v : DepPath) : Prop :=
  (∃ n, (n, v) ∈ cfg.dependency_overrides) ∨
  (∃ sname ctx n, (n, some v) ∈ (cfg.modules sname).map ctx)

/-- A warm flow state for a given configuration, storage and cache: the
run set is empty, every resolved path value is one the configuration can
produce, the ownership map only names configured stages, and storage and
cache are the ambient ones. -/
def WarmInv (cfg : FlowConfig) (fs : Fs) (c : F4Cache) (st : FlowState) : Prop :=
  st.run_stages = [] ∧
  (∀ n v, (n, some v) ∈ st.dep_paths → ValOf cfg v) ∧
  (∀ n s, (n, s) ∈ st.os_map → s ∈ cfg.stages) ∧
  st.fs = fs ∧ st.f4cache = some c

/-! ## Shared lemmas about the association-list operations -/

theorem lookupA_setA {κ α : Type} [DecidableEq κ] (k k2 : κ) (v : α) :
    ∀ m : List (κ × α), lookupA k (setA k2 v m) = if k = k2 then some v else lookupA k m
  | [] => by
    by_cases h : k = k2 <;> simp [setA, lookupA, h]
  | (k3, w) :: rest => by
    by_cases h2 : k2 = k3
    · subst h2
      by_cases h : k = k2 <;> simp [setA, lookupA, h]
    · by_cases h : k = k3
      · subst h
        have hk2 : ¬ k = k2 := fun h => h2 h.symm
        simp [setA, lookupA, h2, hk2, lookupA_setA k k2 v rest]
      · simp [setA, lookupA, h2, h, lookupA_setA k k2 v rest]

theorem lookupA_mem {κ α : Type} [DecidableEq κ] (k : κ) (v : α) :
    ∀ m : List (κ × α), lookupA k m = some v → (k, v) ∈ m
  | (k2, w) :: rest, h => by
    by_cases hk : k = k2
    · subst hk
      simp [lookupA] at h
      simp [h]
    · simp [lookupA, hk] at h
      exact List.mem_cons_of_mem _ (lookupA_mem k v rest h)

theorem mem_setA {κ α : Type} [DecidableEq κ] (x : κ × α) (k : κ) (v : α) :
    ∀ m : List (κ × α), x ∈ setA k v m → x = (k, v) ∨ x ∈ m
  | [], h => by simpa [setA] using h
  | (k2, w) :: rest, h => by
    by_cases hk : k = k2
    · subst hk
      simp [setA] at h
      rcases h with h | h
      · exact .inl h
      · exact .inr (List.mem_cons_of_mem _ h)
    · simp [setA, hk] at h
      rcases h with h | h
      · exact .inr (by simp [h])
      · rcases mem_setA x k v rest h with h | h
        · exact .inl h
        · exact .inr (List.mem_cons_of_mem _ h)

theorem mem_updateA {κ α : Type} [DecidableEq κ] (x : κ × α) :
    ∀ (l m : List (κ × α)), x ∈ updateA m l → x ∈ m ∨ x ∈ l
  | [], m, h => .inl (by simpa [updateA] using h)
  | (k, v) :: rest, m, h => by
    simp only [updateA] at h
    rcases mem_updateA x rest (setA k v m) h with h | h
    · rcases mem_setA x k v m h with h | h
      · exact .inr (by simp [h])
      · exact .inl h
    · exact .inr (List.mem_cons_of_mem _ h)

theorem mem_eraseA {κ α : Type} [DecidableEq κ] (x : κ × α) (k : κ) :
    ∀ m : List (κ × α), x ∈ eraseA k m → x ∈ m
  | (k2, w) :: rest, h => by
    by_cases hk : k = k2
    · subst hk
      simp only [eraseA, if_pos rfl] at h
      exact List.mem_cons_of_mem _ h
    · simp only [eraseA, if_neg hk] at h
      rcases List.mem_cons.mp h with h | h
      · simp [h]
      · exact List.mem_cons_of_mem _ (mem_eraseA x k rest h)

theorem mem_filter_existing_deps (fs : Fs) (x : String × DepPath) :
    ∀ (l r : List (String × DepPath)), filter_existing_deps fs l = .ok r → x ∈ r → x ∈ l
  | [], r, h, hx => by
    simp only [filter_existing_deps] at h
    cases h
    simp at hx
  | (n, p) :: rest, r, h, hx => by
    simp only [filter_existing_deps] at h
    rcases he : req_exists fs p with e | b <;> rw [he] at h
    · cases h
    · rcases hr : filter_existing_deps fs rest with e2 | r2 <;> rw [hr] at h
      · cases h
      · cases h
        by_cases hb : b = true
        · subst hb
          simp only [if_pos rfl] at hx
          rcases List.mem_cons.mp hx with h1 | h1
          · simp [h1]
          · exact List.mem_cons_of_mem _ (mem_filter_existing_deps fs x rest r2 hr h1)
        · simp only [Bool.not_eq_true] at hb
          subst hb
          simp only [Bool.false_eq_true, if_neg] at hx
          exact List.mem_cons_of_mem _ (mem_filter_existing_deps fs x rest r2 hr hx)

/-! ## Lemmas relating req_exists to the claim-side existence semantics -/

mutual

theorem req_exists_of_strList (fs : Fs) :
    (d : DepPath) → specStrListOnly d = true → req_exists fs d = .ok (specAllExists fs d)
  | .single p, _ => rfl
  | .seq ps, h => by
    have hl : specStrListOnly_list ps = true := by simpa [specStrListOnly] using h
    simpa [req_exists, specAllExists] using req_exists_list_of_strList fs ps hl

theorem req_exists_list_of_strList (fs : Fs) :
    (l : List DepPath) → specStrListOnly_list l = true →
      req_exists_list fs l = .ok (specAllExists_list fs l)
  | [], _ => rfl
  | p :: ps, h => by
    have h1 : specStrListOnly p = true := by
      have := (Bool.and_eq_true _ _).mp (by simpa [specStrListOnly_list] using h)
      exact this.1
    have h2 : specStrListOnly_list ps = true := by
      have := (Bool.and_eq_true _ _).mp (by simpa [specStrListOnly_list] using h)
      exact this.2
    have e1 := req_exists_of_strList fs p h1
    have e2 := req_exists_list_of_strList fs ps h2
    rcases hb : specAllExists fs p with _ | _
    · simp [req_exists_list, specAllExists_list, e1, hb]
    · simp [req_exists_list, specAllExists_list, e1, hb, e2]

end

theorem lookupA_eraseA_ne {κ α : Type} [DecidableEq κ] (k k2 : κ) (hne : k ≠ k2) :
    ∀ m : List (κ × α), lookupA k (eraseA k2 m) = lookupA k m
  | [] => rfl
  | (k3, w) :: rest => by
    by_cases h2 : k2 = k3
    · subst h2
      rw [eraseA, if_pos rfl, lookupA, if_neg hne]
    · rw [eraseA, if_neg h2, lookupA, lookupA]
      by_cases hk : k = k3
      · simp [hk]
      · simp [hk, lookupA_eraseA_ne k k2 hne rest]

theorem eraseA_sublist {κ α : Type} [DecidableEq κ] (k : κ) :
    ∀ m : List (κ × α), (eraseA k m).Sublist m
  | [] => .slnil
  | (k2, w) :: rest => by
    by_cases h : k = k2
    · rw [eraseA, if_pos h]
      exact List.sublist_cons_self _ _
    · rw [eraseA, if_neg h]
      exact (eraseA_sublist k rest).cons₂ _

theorem lookupA_eq_none_of_not_mem_keys {κ α : Type} [DecidableEq κ] (k : κ) :
    ∀ m : List (κ × α), k ∉ m.map Prod.fst → lookupA k m = none
  | [], _ => rfl
  | (k2, w) :: rest, h => by
    have h1 : k ≠ k2 := fun he => h (by simp [he])
    rw [lookupA, if_neg h1]
    exact lookupA_eq_none_of_not_mem_keys k rest (fun he => h (List.mem_cons_of_mem _ he))

theorem lookupA_eraseA_self {κ α : Type} [DecidableEq κ] (k : κ) :
    ∀ m : List (κ × α), (m.map Prod.fst).Nodup → lookupA k (eraseA k m) = none
  | [], _ => rfl
  | (k2, w) :: rest, hnd => by
    have hnd2 : (k2 :: rest.map Prod.fst).Nodup := by simpa using hnd
    by_cases h : k = k2
    · subst h
      rw [eraseA, if_pos rfl]
      exact lookupA_eq_none_of_not_mem_keys k rest (List.nodup_cons.mp hnd2).1
    · rw [eraseA, if_neg h, lookupA, if_neg h]
      exact lookupA_eraseA_self k rest (List.nodup_cons.mp hnd2).2

/-! ## Lemmas about ownership-map construction -/



theorem register_outputs_preserve (t : Stage) (k : String) (s : Stage) :
    ∀ (os : List DependencySpec) (m m2 : List (String × Stage)),
      register_outputs t os m = .ok m2 → lookupA k m = some s → lookupA k m2 = some s
  | [], m, m2, h, hk => by
    simp only [register_outputs] at h
    cases h
    exact hk
  | o :: os, m, m2, h, hk => by
    rcases ho : lookupA o.name m with _ | s2 <;> simp only [register_outputs, ho] at h
    · refine register_outputs_preserve t k s os _ m2 h ?_
      rw [lookupA_setA]
      split
      · next heq => rw [heq] at hk; rw [hk] at ho; cases ho
      · exact hk
    · by_cases hs : s2 = t
      · rw [if_pos hs] at h
        exact register_outputs_preserve t k s os m m2 h hk
      · rw [if_neg hs] at h
        cases h

theorem register_outputs_own (t : Stage) :
    ∀ (os : List DependencySpec) (m m2 : List (String × Stage)),
      register_outputs t os m = .ok m2 → ∀ o ∈ os, lookupA o.name m2 = some t
  | o :: os, m, m2, h, o2, ho2 => by
    rcases ho : lookupA o.name m with _ | s2 <;> simp only [register_outputs, ho] at h
    · rcases List.mem_cons.mp ho2 with he | he
      · subst he
        refine register_outputs_preserve t o2.name t os _ m2 h ?_
        rw [lookupA_setA, if_pos rfl]
      · exact register_outputs_own t os _ m2 h o2 he
    · by_cases hs : s2 = t
      · rw [if_pos hs] at h
        subst hs
        rcases List.mem_cons.mp ho2 with he | he
        · subst he
          exact register_outputs_preserve s2 o2.name s2 os m m2 h ho
        · exact register_outputs_own s2 os m m2 h o2 he
      · rw [if_neg hs] at h
        cases h

theorem map_outputs_from_preserve (k : String) (s : Stage) :
    ∀ (ss : List Stage) (m m2 : List (String × Stage)),
      map_outputs_to_stages_from m ss = .ok m2 → lookupA k m = some s → lookupA k m2 = some s
  | [], m, m2, h, hk => by
    simp only [map_outputs_to_stages_from] at h
    cases h
    exact hk
  | s2 :: ss, m, m2, h, hk => by
    rcases hr : register_outputs s2 s2.produces m
      with _ | m3 <;> simp only [map_outputs_to_stages_from, hr] at h
    · cases h
    · exact map_outputs_from_preserve k s ss m3 m2 h
        (register_outputs_preserve s2 k s s2.produces m m3 hr hk)

theorem map_outputs_from_own :
    ∀ (ss : List Stage) (m m2 : List (String × Stage)),
      map_outputs_to_stages_from m ss = .ok m2 →
      ∀ s ∈ ss, ∀ o ∈ s.produces, lookupA o.name m2 = some s
  | s2 :: ss, m, m2, h, s, hs, o, ho => by
    rcases hr : register_outputs s2 s2.produces m
      with _ | m3 <;> simp only [map_outputs_to_stages_from, hr] at h
    · cases h
    · rcases List.mem_cons.mp hs with he | he
      · subst he
        exact map_outputs_from_preserve o.name s ss m3 m2 h
          (register_outputs_own s s.produces m m3 hr o ho)
      · exact map_outputs_from_own ss m3 m2 h s he o ho

theorem register_outputs_err (t : Stage) :
    ∀ (os : List DependencySpec) (m : List (String × Stage)) (e : Err),
      register_outputs t os m = .error e → ∃ n a, e = .duplicateProvider n a t.name
  | o :: os, m, e, h => by
    rcases ho : lookupA o.name m with _ | s2 <;> simp only [register_outputs, ho] at h
    · exact register_outputs_err t os _ e h
    · by_cases hs : s2 = t
      · rw [if_pos hs] at h
        exact register_outputs_err t os m e h
      · rw [if_neg hs] at h
        cases h
        exact ⟨o.name, s2.name, rfl⟩

theorem map_outputs_from_err :
    ∀ (ss : List Stage) (m : List (String × Stage)) (e : Err),
      map_outputs_to_stages_from m ss = .error e → ∃ n a b, e = .duplicateProvider n a b
  | s2 :: ss, m, e, h => by
    rcases hr : register_outputs s2 s2.produces m
      with e2 | m3 <;> simp only [map_outputs_to_stages_from, hr] at h
    · cases h
      rcases register_outputs_err s2 s2.produces m _ hr with ⟨n, a, he⟩
      exact ⟨n, a, s2.name, he⟩
    · exact map_outputs_from_err ss m3 e h

theorem register_outputs_no_err (stages : List Stage) (t : Stage)
    (hnd : ∀ s ∈ stages, ∀ s2 ∈ stages,
      (∃ n, n ∈ s.produces.map DependencySpec.name ∧ n ∈ s2.produces.map DependencySpec.name) →
      s = s2)
    (ht : t ∈ stages) :
    ∀ (os : List DependencySpec) (m : List (String × Stage)),
      (∀ o ∈ os, o.name ∈ t.produces.map DependencySpec.name) →
      (∀ k s, lookupA k m = some s → s ∈ stages ∧ k ∈ s.produces.map DependencySpec.name) →
      ∃ m2, register_outputs t os m = .ok m2 ∧
        (∀ k s, lookupA k m2 = some s → s ∈ stages ∧ k ∈ s.produces.map DependencySpec.name)
  | [], m, _, hinv => ⟨m, rfl, hinv⟩
  | o :: os, m, hos, hinv => by
    rcases ho : lookupA o.name m with _ | s2
    · have hinv2 : ∀ k s, lookupA k (setA o.name t m) = some s →
          s ∈ stages ∧ k ∈ s.produces.map DependencySpec.name := by
        intro k s hk
        rw [lookupA_setA] at hk
        split at hk
        · next heq =>
          cases hk
          exact ⟨ht, by rw [heq]; exact hos o (by simp)⟩
        · exact hinv k s hk
      rcases register_outputs_no_err stages t hnd ht os (setA o.name t m)
        (fun o2 ho2 => hos o2 (List.mem_cons_of_mem _ ho2)) hinv2 with ⟨m2, hm2, hinv3⟩
      exact ⟨m2, by simp only [register_outputs, ho, hm2], hinv3⟩
    · have hs2 : s2 = t := by
        rcases hinv o.name s2 ho with ⟨hmem, hname⟩
        exact hnd s2 hmem t ht ⟨o.name, hname, hos o (by simp)⟩
      subst hs2
      rcases register_outputs_no_err stages s2 hnd ht os m
        (fun o2 ho2 => hos o2 (List.mem_cons_of_mem _ ho2)) hinv with ⟨m2, hm2, hinv3⟩
      refine ⟨m2, ?_, hinv3⟩
      simp only [register_outputs, ho, if_pos rfl]
      exact hm2

theorem map_outputs_from_no_err (stages : List Stage)
    (hnd : ∀ s ∈ stages, ∀ s2 ∈ stages,
      (∃ n, n ∈ s.produces.map DependencySpec.name ∧ n ∈ s2.produces.map DependencySpec.name) →
      s = s2) :
    ∀ (ss : List Stage) (m : List (String × Stage)),
      (∀ s ∈ ss, s ∈ stages) →
      (∀ k s, lookupA k m = some s → s ∈ stages ∧ k ∈ s.produces.map DependencySpec.name) →
      ∃ m2, map_outputs_to_stages_from m ss = .ok m2
  | [], m, _, _ => ⟨m, rfl⟩
  | s2 :: ss, m, hss, hinv => by
    rcases register_outputs_no_err stages s2 hnd (hss s2 (by simp)) s2.produces m
      (fun o ho => List.mem_map_of_mem _ ho) hinv with ⟨m3, hm3, hinv3⟩
    rcases map_outputs_from_no_err stages hnd ss m3
      (fun s hs => hss s (List.mem_cons_of_mem _ hs)) hinv3 with ⟨m2, hm2⟩
    exact ⟨m2, by simp only [map_outputs_to_stages_from, hm3, hm2]⟩

/-! ## Concrete counterexample and code-divergence evaluations -/

set_option maxHeartbeats 2000000 in
/-- C2 counterexample: a first `execute` of target t on `cfgC2` completes
successfully (it runs stages S then T; stage C is unreachable because its
required input z, an explicit override at path p, does not exist yet).
Stage S writes its own output y to that same path p, so at the second
construction z resolves, stage C becomes reachable with a cold cache entry
for (p, C), and the second run, with nothing changed after the first,
executes C and then T: two real module executions instead of zero. -/
theorem c2_second_run_executes_counterexample :
    isOkB (runFlow cfgC2 "t" fsC2 (some []) 40) = true ∧
    execsOf (runFlow cfgC2 "t" fsC2 (some []) 40) = ["S", "T"] ∧
    execsOf (runTwice cfgC2 "t" fsC2 (some []) 40) = ["C", "T"] := by
  refine ⟨?_, ?_, ?_⟩ <;>
  simp [cfgC2, fsC2, stageC2S, stageC2C, stageC2T, runFlow, runTwice, flow_init, flow_execute, resolve_dependencies, resolve_takes,
      will_cause_rebuild, mark_rebuild, resolve_finish, verify_outputs, add_run_for_missing_outputs, cache_outputs_preexisting,
      build_dep, build_takes, post_products, init_rebuild_counter,
      mkDS, constModule, map_outputs_to_stages,
      map_outputs_to_stages_from, register_outputs, filter_existing_deps,
      req_exists, req_exists_list, req_exists_opt, dep_differ, dep_differ_list, dep_differ_named,
      dep_will_differ, FlowState.dep_will_differ_checked, update_dep_statuses,
      update_dep_statuses_opt, cache_update, get_status, fsExists,
      lookupA, setA, eraseA, updateA, addOnce, ovd_get, ovd_set,
      get_stage_values_override, config_mod_runctx, prep_takes, prep_produces,
      dep_value_str, DepPath.truthy, truthyO,
      isOkB, execsOf, diagsOf, runSetOf, fsOf, depPathsOf, osMapOf]

set_option maxHeartbeats 2000000 in
/-- C7 counterexample: with caching disabled, stage A (no inputs, output y
already on storage, consumed by stage B on the way to the target t) is
never executed: the run executes only B.  This refutes the sentence that
every reachable stage whose output is consumed by the target is executed
exactly once per run. -/
theorem c7_zero_input_stage_skipped_counterexample :
    isOkB (runFlow cfgC7 "t" fsC7 none 40) = true ∧
    execsOf (runFlow cfgC7 "t" fsC7 none 40) = ["B"] ∧
    (execsOf (runFlow cfgC7 "t" fsC7 none 40)).count "A" = 0 ∧
    map_outputs_to_stages cfgC7.stages = .ok [("y", stageC7A), ("t", stageC7B)] ∧
    mkDS "y" .req ∈ stageC7B.takes ∧ stageC7A.takes = [] := by
  refine ⟨?_, ?_, ?_, ?_, ?_, ?_⟩ <;>
  simp [cfgC7, fsC7, stageC7A, stageC7B, runFlow, runTwice, flow_init, flow_execute, resolve_dependencies, resolve_takes,
      will_cause_rebuild, mark_rebuild, resolve_finish, verify_outputs, add_run_for_missing_outputs, cache_outputs_preexisting,
      build_dep, build_takes, post_products, init_rebuild_counter,
      mkDS, constModule, map_outputs_to_stages,
      map_outputs_to_stages_from, register_outputs, filter_existing_deps,
      req_exists, req_exists_list, req_exists_opt, dep_differ, dep_differ_list, dep_differ_named,
      dep_will_differ, FlowState.dep_will_differ_checked, update_dep_statuses,
      update_dep_statuses_opt, cache_update, get_status, fsExists,
      lookupA, setA, eraseA, updateA, addOnce, ovd_get, ovd_set,
      get_stage_values_override, config_mod_runctx, prep_takes, prep_produces,
      dep_value_str, DepPath.truthy, truthyO,
      isOkB, execsOf, diagsOf, runSetOf, fsOf, depPathsOf, osMapOf]

set_option maxHeartbeats 2000000 in
/-- C3 counterexample: stage P declares the maybe input a (resolvable and
stale) before the required input b (no producer, no explicit path).
Resolution processes a first and adds P to the run set, then abandons P at
b with the unreachable diagnostic; so a stage with an unresolvable
required input can enter the run set.  Its outputs remain unresolved and
nothing is executed. -/
theorem c3_run_set_counterexample :
    runSetOf (flow_init cfgC3 "o" fsC3 (some []) 40) = ["P"] ∧
    Diag.unreachableStage "P" "b" ∈ diagsOf (flow_init cfgC3 "o" fsC3 (some []) 40) ∧
    mkDS "b" .req ∈ stageC3P.takes ∧
    lookupA "b" (depPathsOf (flow_init cfgC3 "o" fsC3 (some []) 40)) = none ∧
    lookupA "b" (osMapOf (flow_init cfgC3 "o" fsC3 (some []) 40)) = none ∧
    lookupA "o" (depPathsOf (flow_init cfgC3 "o" fsC3 (some []) 40)) = none ∧
    execsOf (flow_init cfgC3 "o" fsC3 (some []) 40) = [] := by
  refine ⟨?_, ?_, ?_, ?_, ?_, ?_, ?_⟩ <;>
  simp [cfgC3, fsC3, stageC3P, runFlow, runTwice, flow_init, flow_execute, resolve_dependencies, resolve_takes,
      will_cause_rebuild, mark_rebuild, resolve_finish, verify_outputs, add_run_for_missing_outputs, cache_outputs_preexisting,
      build_dep, build_takes, post_products, init_rebuild_counter,
      mkDS, constModule, map_outputs_to_stages,
      map_outputs_to_stages_from, register_outputs, filter_existing_deps,
      req_exists, req_exists_list, req_exists_opt, dep_differ, dep_differ_list, dep_differ_named,
      dep_will_differ, FlowState.dep_will_differ_checked, update_dep_statuses,
      update_dep_statuses_opt, cache_update, get_status, fsExists,
      lookupA, setA, eraseA, updateA, addOnce, ovd_get, ovd_set,
      get_stage_values_override, config_mod_runctx, prep_takes, prep_produces,
      dep_value_str, DepPath.truthy, truthyO,
      isOkB, execsOf, diagsOf, runSetOf, fsOf, depPathsOf, osMapOf]

set_option maxHeartbeats 2000000 in
/-- C5 evaluation at the failing input: stage P promises required outputs
y1 and y2; its execution produces only y1.  Building target y1 completes
without any exception: the post-execution check tests existence of the
dependency being built (y1) for every product and so never notices that
the required sibling y2 is missing, and the exception it would raise names
the built dependency rather than the missing output. -/
theorem c5_missing_required_sibling_undetected :
    c5_post_check = true ∧ mkDS "y2" .req ∈ stageC5P.produces := by
  refine ⟨?_, ?_⟩ <;>
  simp [c5_post_check, cfgC5, fsC5, stageC5P, runFlow, runTwice, flow_init, flow_execute,
      resolve_dependencies, resolve_takes,
      will_cause_rebuild, mark_rebuild, resolve_finish, verify_outputs, add_run_for_missing_outputs, cache_outputs_preexisting,
      build_dep, build_takes, post_products, init_rebuild_counter,
      mkDS, constModule, map_outputs_to_stages,
      map_outputs_to_stages_from, register_outputs, filter_existing_deps,
      req_exists, req_exists_list, req_exists_opt, dep_differ, dep_differ_list, dep_differ_named,
      dep_will_differ, FlowState.dep_will_differ_checked, update_dep_statuses,
      update_dep_statuses_opt, cache_update, get_status, fsExists,
      lookupA, setA, eraseA, updateA, addOnce, ovd_get, ovd_set,
      get_stage_values_override, config_mod_runctx, prep_takes, prep_produces,
      dep_value_str, DepPath.truthy, truthyO, isOkB, execsOf]

/-- C9 evaluation at the failing input: for the two-element list [a, b]
with a recorded as current and b recorded stale for consumer W,
`update_dep_statuses` reports no difference and leaves the stale record of
b untouched (the source loop returns on the first element), while
`dep_differ` on the same state reports that the list differs; an empty
list is a fatal wrong-paths error rather than a vacuous success. -/
theorem c9_updates_first_element_only :
    update_dep_statuses fsC9 cacheC9 "W" (.seq [.single "a", .single "b"]) =
      .ok (false, [(("a", "W"), 1), (("b", "W"), 99)]) ∧
    lookupA ("b", "W") cacheC9 = some 99 ∧
    lookupA "b" fsC9 = some 2 ∧
    dep_differ fsC9 cacheC9 "W" (.seq [.single "a", .single "b"]) = true ∧
    update_dep_statuses fsC9 cacheC9 "W" (.seq []) = .error .fatalWrongPaths := by
  refine ⟨?_, ?_, ?_, ?_, ?_⟩ <;>
  simp [fsC9, cacheC9, update_dep_statuses, dep_differ, dep_differ_list, dep_differ_named,
    cache_update, get_status, fsExists, lookupA, setA, eraseA]

/-! ## Lemmas about the planning verdict -/

theorem dep_will_differ_checked_eq (st : FlowState) (dep : String) (tp : DepPath)
    (consumer : String) :
    st.dep_will_differ_checked dep tp consumer =
      (provider_in_run_set st dep || oracle_differs st tp consumer) := by
  rcases hc : st.f4cache with _ | c
  · simp [FlowState.dep_will_differ_checked, oracle_differs, hc]
  · rcases ho : lookupA dep st.os_map with _ | p <;>
      simp [FlowState.dep_will_differ_checked, oracle_differs, hc, dep_will_differ,
        provider_in_run_set, ho]

/-- One unfolding step of the takes loop, once the recursive resolution of
the head input is known. -/
theorem resolve_takes_cons (cfg : FlowConfig) (fuel : Nat) (provider : Stage)
    (take : DependencySpec) (rest : List DependencySpec) (st0 st : FlowState)
    (hres : resolve_dependencies cfg fuel take.name st0 = .ok st) :
    resolve_takes cfg (fuel + 1) provider (take :: rest) st0 =
      (let take_paths := (lookupA take.name st.dep_paths).join
       let vo := ovd_set provider.name (dep_value_str take.name) take_paths st.value_overrides
       let st1 : FlowState := { st with value_overrides := vo }
       if ¬ truthyO take_paths ∧ take.spec = .req then
         .ok (false, { st1 with diags := st1.diags ++ [.unreachableStage provider.name take.name] })
       else
         match will_cause_rebuild st1 take provider with
         | .error e => .error e
         | .ok will_differ =>
           if will_differ then
             match lookupA take.name st1.deps_rebuilds with
             | none => .error (.keyError take.name)
             | some k => resolve_takes cfg fuel provider rest (mark_rebuild provider take.name k st1)
           else
             resolve_takes cfg fuel provider rest st1) := by
  simp only [resolve_takes, hres]

/-! ## Planning performs no module executions -/

theorem verify_outputs_state (cfg : FlowConfig) (provider : Stage)
    (outputs : List (String × Option DepPath)) :
    ∀ (produces : List DependencySpec) (st st2 : FlowState),
      verify_outputs cfg provider outputs produces st = .ok st2 →
      st2.execs = st.execs ∧ st2.dep_paths = st.dep_paths ∧
      st2.run_stages = st.run_stages ∧ st2.fs = st.fs ∧ st2.f4cache = st.f4cache ∧
      st2.stages_checked = st.stages_checked ∧ st2.deps_rebuilds = st.deps_rebuilds ∧
      st2.diags = st.diags ∧ st2.skip_dep_warnings = st.skip_dep_warnings
  | [], st, st2, h => by
    cases h
    exact ⟨rfl, rfl, rfl, rfl, rfl, rfl, rfl, rfl, rfl⟩
  | o :: os, st, st2, h => by
    simp only [verify_outputs] at h
    split at h
    · cases h
    · next st3 hpop =>
      split at h <;>
      · rename_i hjoin
        have ih := verify_outputs_state cfg provider outputs os _ st2 h
        have hst3 : st3.execs = st.execs ∧ st3.dep_paths = st.dep_paths ∧
            st3.run_stages = st.run_stages ∧ st3.fs = st.fs ∧ st3.f4cache = st.f4cache ∧
            st3.stages_checked = st.stages_checked ∧ st3.deps_rebuilds = st.deps_rebuilds ∧
            st3.diags = st.diags ∧ st3.skip_dep_warnings = st.skip_dep_warnings := by
          split at hpop
          · split at hpop
            · cases hpop
            · split at hpop
              · cases hpop
              · cases hpop
                exact ⟨rfl, rfl, rfl, rfl, rfl, rfl, rfl, rfl, rfl⟩
          · cases hpop
            exact ⟨rfl, rfl, rfl, rfl, rfl, rfl, rfl, rfl, rfl⟩
        simp only [ih.1, ih.2.1, ih.2.2.1, ih.2.2.2.1, ih.2.2.2.2.1, ih.2.2.2.2.2.1,
          ih.2.2.2.2.2.2.1, ih.2.2.2.2.2.2.2.1, ih.2.2.2.2.2.2.2.2]
        exact hst3

theorem add_run_state (provider : Stage) :
    ∀ (outs : List (String × Option DepPath)) (st st2 : FlowState),
      add_run_for_missing_outputs provider outs st = .ok st2 →
      st2.execs = st.execs ∧ st2.dep_paths = st.dep_paths ∧ st2.fs = st.fs ∧
      st2.f4cache = st.f4cache ∧ st2.os_map = st.os_map ∧
      st2.stages_checked = st.stages_checked ∧ st2.diags = st.diags ∧
      st2.deps_rebuilds = st.deps_rebuilds ∧ st2.value_overrides = st.value_overrides ∧
      st2.skip_dep_warnings = st.skip_dep_warnings
  | [], st, st2, h => by
    cases h
    exact ⟨rfl, rfl, rfl, rfl, rfl, rfl, rfl, rfl, rfl, rfl⟩
  | (n, none) :: rest, st, st2, h => by
    simp only [add_run_for_missing_outputs] at h
    exact add_run_state provider rest st st2 h
  | (n, some op) :: rest, st, st2, h => by
    simp only [add_run_for_missing_outputs] at h
    split at h
    · cases h
    · split at h
      · exact add_run_state provider rest _ st2 h
      · have h5 := add_run_state provider rest _ st2 h
        simpa using h5

theorem resolve_finish_state (cfg : FlowConfig) (provider : Stage) (st st2 : FlowState)
    (h : resolve_finish cfg provider st = .ok st2) :
    st2.execs = st.execs ∧ st2.fs = st.fs ∧ st2.f4cache = st.f4cache ∧
    st2.diags = st.diags ∧ st2.skip_dep_warnings = st.skip_dep_warnings := by
  simp only [resolve_finish] at h
  split at h
  · cases h
  · split at h
    · cases h
    · rename_i stB hrun
      have h1 := add_run_state provider _ _ _ hrun
      have h2 := verify_outputs_state cfg provider _ provider.produces _ _ h
      refine ⟨?_, ?_, ?_, ?_, ?_⟩
      · rw [h2.1, h1.1]
      · rw [h2.2.2.2.1, h1.2.2.1]
      · rw [h2.2.2.2.2.1, h1.2.2.2.1]
      · rw [h2.2.2.2.2.2.2.2.1, h1.2.2.2.2.2.2.1]
      · rw [h2.2.2.2.2.2.2.2.2, h1.2.2.2.2.2.2.2.2.2]

/-- Planning never invokes a module execute operation: both resolver
functions preserve the execution log (and storage and diagnostics are
only extended, never the log). -/
theorem resolve_no_exec (cfg : FlowConfig) : ∀ fuel : Nat,
    (∀ (dep : String) (st st2 : FlowState),
      resolve_dependencies cfg fuel dep st = .ok st2 → st2.execs = st.execs ∧ st2.fs = st.fs) ∧
    (∀ (provider : Stage) (tks : List DependencySpec) (st : FlowState) (b : Bool)
        (st2 : FlowState),
      resolve_takes cfg fuel provider tks st = .ok (b, st2) → st2.execs = st.execs ∧ st2.fs = st.fs)
  | 0 =>
    ⟨(fun _ _ _ h => by cases h), (fun _ _ _ _ _ h => by cases h)⟩
  | fuel + 1 => by
    obtain ⟨ih1, ih2⟩ := resolve_no_exec cfg fuel
    constructor
    · intro dep st st2 h
      simp only [resolve_dependencies] at h
      have hinit : (init_rebuild_counter dep st).execs = st.execs ∧
          (init_rebuild_counter dep st).fs = st.fs := by
        simp only [init_rebuild_counter]
        split <;> exact ⟨rfl, rfl⟩
      split at h
      · cases h
        exact hinit
      · split at h
        · cases h
          exact hinit
        · split at h
          · cases h
            exact hinit
          · split at h
            · cases h
            · next cont st3 htk =>
              have h3 := ih2 _ _ _ _ _ htk
              split at h
              · have h4 := resolve_finish_state cfg _ _ _ h
                exact ⟨by rw [h4.1, h3.1, hinit.1], by rw [h4.2.1, h3.2, hinit.2]⟩
              · cases h
                exact ⟨by rw [h3.1, hinit.1], by rw [h3.2, hinit.2]⟩
    · intro provider tks st b st2 h
      cases tks with
      | nil =>
        simp only [resolve_takes] at h
        cases h
        exact ⟨rfl, rfl⟩
      | cons take rest =>
        simp only [resolve_takes] at h
        split at h
        · cases h
        · next st3 hres =>
          have h3 := ih1 _ _ _ hres
          split at h
          · cases h
            exact ⟨by simpa using h3.1, by simpa using h3.2⟩
          · split at h
            · cases h
            · split at h
              · split at h
                · cases h
                · next k hk =>
                  have h4 := ih2 _ _ _ _ _ h
                  refine ⟨?_, ?_⟩
                  · rw [h4.1]
                    simp [mark_rebuild]
                    split <;> simp [h3.1]
                  · rw [h4.2]
                    simp [mark_rebuild]
                    split <;> simp [h3.2]
              · have h4 := ih2 _ _ _ _ _ h
                exact ⟨by simpa [h3.1] using h4.1, by simpa [h3.2] using h4.2⟩

/-! ## C3: abandonment of a stage with an unresolvable required input -/

/-- C3 (amended): when an input of the stage being resolved is required
and resolves to no path, the takes loop abandons the stage: it returns the
abandoned verdict with a diagnostic naming the stage and the unmet input,
the remaining inputs unprocessed, and the abandonment step itself changes
neither the run set nor the resolved paths nor the execution log (the
original claim that the stage is NEVER in the Run-Set fails: an earlier
input processed before the abandonment may already have marked it);
an abandoned resolution skips the finish step, so the resolution pass ends
in the abandoned state and the stage outputs stay unresolved; planning
never invokes a module execute operation; and building a dependency whose
path is unresolved reports failure with a diagnostic, again without any
module execution. -/
theorem c3_unreachable_stage_abandoned :
    (∀ (cfg : FlowConfig) (fuel : Nat) (provider : Stage) (take : DependencySpec)
        (rest : List DependencySpec) (st0 st : FlowState),
      resolve_dependencies cfg fuel take.name st0 = .ok st →
      truthyO ((lookupA take.name st.dep_paths).join) = false →
      take.spec = .req →
      resolve_takes cfg (fuel + 1) provider (take :: rest) st0 =
        .ok (false, { stash_take_path provider take.name st with
          diags := st.diags ++ [.unreachableStage provider.name take.name] }) ∧
      (stash_take_path provider take.name st).run_stages = st.run_stages ∧
      (stash_take_path provider take.name st).dep_paths = st.dep_paths ∧
      (stash_take_path provider take.name st).execs = st.execs) ∧
    (∀ (cfg : FlowConfig) (fuel : Nat) (dep : String) (st0 stx : FlowState) (provider : Stage),
      lookupA dep st0.os_map = some provider →
      provider.name ∉ st0.stages_checked →
      resolve_takes cfg fuel provider provider.takes (init_rebuild_counter dep st0) =
        .ok (false, stx) →
      resolve_dependencies cfg (fuel + 1) dep st0 = .ok stx) ∧
    (∀ (cfg : FlowConfig) (fuel : Nat) (dep : String) (st st2 : FlowState),
      resolve_dependencies cfg fuel dep st = .ok st2 → st2.execs = st.execs) ∧
    (∀ (cfg : FlowConfig) (fuel : Nat) (dep : String) (st : FlowState),
      (lookupA dep st.dep_paths).join = none →
      build_dep cfg (fuel + 1) dep st =
        .ok (false, { st with diags := st.diags ++ [.unresolvedDep dep] })) := by
  refine ⟨?_, ?_, ?_, ?_⟩
  · intro cfg fuel provider take rest st0 st hres htr hspec
    have htrb : truthyO ((lookupA take.name st.dep_paths).bind fun a => a) = false := by
      simpa [Option.join] using htr
    refine ⟨?_, rfl, rfl, rfl⟩
    simp only [resolve_takes, hres]
    rw [if_pos ⟨by simp [htrb], hspec⟩]
    simp [stash_take_path]
  · intro cfg fuel dep st0 stx provider ho hch htk
    have hos : (init_rebuild_counter dep st0).os_map = st0.os_map := by
      simp only [init_rebuild_counter]
      split <;> rfl
    have hck : (init_rebuild_counter dep st0).stages_checked = st0.stages_checked := by
      simp only [init_rebuild_counter]
      split <;> rfl
    simp only [resolve_dependencies, hos, hck, ho, htk]
    simp [hch]
  · intro cfg fuel dep st st2 h
    exact ((resolve_no_exec cfg fuel).1 dep st st2 h).1
  · intro cfg fuel dep st hj
    simp only [build_dep, hj]

/-- C3 witness: the abandonment theorem applied at concrete inputs of the
C3 scenario: resolving the required input b (no override, no producer)
abandons stage P with the diagnostic; a resolution pass from target o ends
in the abandoned state, skipping the finish step, with the execution log
untouched; and building the unresolved dependency q fails with a
diagnostic and no execution. -/
theorem c3_unreachable_stage_abandoned_witness :
    (∃ st, resolve_dependencies cfgC3 1 "b" stC4none = .ok st ∧
      resolve_takes cfgC3 2 stageC3P [mkDS "b" .req] stC4none =
        .ok (false, { stash_take_path stageC3P "b" st with
          diags := st.diags ++ [.unreachableStage stageC3P.name "b"] }) ∧
      (stash_take_path stageC3P "b" st).run_stages = st.run_stages ∧
      (stash_take_path stageC3P "b" st).dep_paths = st.dep_paths ∧
      (stash_take_path stageC3P "b" st).execs = st.execs) ∧
    (∃ stx, resolve_takes cfgC3 3 stageC3P stageC3P.takes
        (init_rebuild_counter "o" stC3w0) = .ok (false, stx) ∧
      resolve_dependencies cfgC3 4 "o" stC3w0 = .ok stx ∧
      stx.execs = stC3w0.execs) ∧
    build_dep cfgC3 1 "q" stC4none =
      .ok (false, { stC4none with diags := stC4none.diags ++ [.unresolvedDep "q"] }) := by
  refine ⟨?_, ?_, ?_⟩
  · refine ⟨_, rfl, ?_⟩
    exact c3_unreachable_stage_abandoned.1 cfgC3 1 stageC3P (mkDS "b" .req) [] stC4none _
      rfl (by decide) rfl
  · refine ⟨_, rfl, ?_, ?_⟩
    · exact c3_unreachable_stage_abandoned.2.1 cfgC3 3 "o" stC3w0 _ stageC3P rfl
        (by decide) rfl
    · exact c3_unreachable_stage_abandoned.2.2.1 cfgC3 4 "o" stC3w0 _
        (c3_unreachable_stage_abandoned.2.1 cfgC3 3 "o" stC3w0 _ stageC3P rfl
          (by decide) rfl)
  · exact c3_unreachable_stage_abandoned.2.2.2 cfgC3 0 "q" stC4none rfl

/-! ## C3 and C7 shared executor lemmas -/

/-- A true any-input-differed accumulator stays true through the input
loop of the executor. -/
theorem build_takes_keeps_adf (cfg : FlowConfig) :
    ∀ (fuel : Nat) (provider : Stage) (tks : List DependencySpec)
      (st : FlowState) (adf : Bool) (st2 : FlowState),
      build_takes cfg fuel provider tks true st = .ok (adf, st2) → adf = true
  | 0, _, _, _, _, _, h => by cases h
  | _ + 1, _, [], _, _, _, h => by
    simp only [build_takes] at h
    cases h
    rfl
  | fuel + 1, provider, p :: rest, st, adf, st2, h => by
    simp only [build_takes] at h
    split at h
    · cases h
    · rename_i built stB hbd
      split at h
      · split at h
        · cases h
        · exact build_takes_keeps_adf cfg fuel provider rest stB adf st2 h
      · split at h
        · split at h
          · cases h
          · rename_i vq hvq
            split at h
            · cases h
            · rename_i r hup
              simp only [Bool.true_or] at h
              exact build_takes_keeps_adf cfg fuel provider rest _ adf st2 h
        · exact build_takes_keeps_adf cfg fuel provider rest stB adf st2 h

/-- The post-execution product loop never changes the state: it only
checks existence and may raise. -/
theorem post_products_id (provider : Stage) (dep : String) (pv : DepPath) :
    ∀ (products : List DependencySpec) (st st2 : FlowState),
      post_products provider dep pv products st = .ok st2 → st2 = st
  | [], st, st2, h => by
    cases h
    rfl
  | product :: rest, st, st2, h => by
    simp only [post_products] at h
    split at h
    · cases h
    · split at h
      · cases h
      · split at h
        · split at h
          · cases h
          · exact post_products_id provider dep pv rest st st2 h
        · exact post_products_id provider dep pv rest st st2 h

/-! ## C7: caching disabled forces rebuilds -/

/-- C7 (amended): with caching disabled every planning-phase staleness
query reports differs unconditionally, the any-input-differed accumulator
of the executor starts true and stays true through the input loop, and a
resolved dependency whose providing stage is scheduled in the run set has
that module executed (the skip-rebuild branch cannot fire).  The original
claim that EVERY reachable stage is executed fails: a stage whose every
output already exists on storage is never scheduled, and the executor's
fast path returns success for its outputs without invoking the module
even with caching disabled. -/
theorem c7_nocache_forces_rebuild :
    (∀ (st : FlowState) (dep : String) (tp : DepPath) (consumer : String),
      st.f4cache = none → st.dep_will_differ_checked dep tp consumer = true) ∧
    (∀ (cfg : FlowConfig) (fuel : Nat) (provider : Stage) (tks : List DependencySpec)
        (st : FlowState) (adf : Bool) (st2 : FlowState),
      build_takes cfg fuel provider tks true st = .ok (adf, st2) → adf = true) ∧
    (∀ (cfg : FlowConfig) (fuel : Nat) (dep : String) (st : FlowState) (pv : DepPath)
        (provider : Stage) (b : Bool) (st2 : FlowState),
      st.f4cache = none →
      (lookupA dep st.dep_paths).join = some pv →
      pv.truthy = true →
      lookupA dep st.os_map = some provider →
      st.run_stages.contains provider.name = true →
      build_dep cfg (fuel + 1) dep st = .ok (b, st2) →
      b = true ∧ provider.name ∈ st2.execs) := by
  refine ⟨?_, ?_, ?_⟩
  · intro st dep tp consumer hc
    simp [FlowState.dep_will_differ_checked, hc]
  · intro cfg fuel provider tks st adf st2 h
    exact build_takes_keeps_adf cfg fuel provider tks st adf st2 h
  · intro cfg fuel dep st pv provider b st2 hc hjoin htr ho hr hbd
    have hjid : (lookupA dep st.dep_paths).bind id = some pv := hjoin
    simp only [build_dep, Option.join, hjid, htr, ho, hr, hc, Option.isNone,
      Bool.not_true, Bool.and_false, Bool.false_eq_true, if_false] at hbd
    split at hbd
    · cases hbd
    · rename_i ex hex
      split at hbd
      · cases hbd
      · rename_i adf stB hbt
        have hadf := build_takes_keeps_adf cfg fuel provider provider.takes st adf stB hbt
        subst hadf
        simp only [Bool.not_true, Bool.false_and, Bool.false_eq_true, if_false] at hbd
        split at hbd
        · cases hbd
        · rename_i ex2 hex2
          split at hbd
          · cases hbd
          · rename_i stF hpp
            cases hbd
            refine ⟨rfl, ?_⟩
            have hid := post_products_id provider dep pv provider.produces _ _ hpp
            rw [hid]
            simp

set_option maxHeartbeats 1000000 in
/-- C7 witness: with caching disabled, a concrete staleness query reports
differs, a concrete run of the input loop keeps the accumulator true, and
building the scheduled target of the C7 scenario executes stage B even
though its output already exists on storage. -/
theorem c7_nocache_forces_rebuild_witness :
    stC7n.f4cache = none ∧
    FlowState.dep_will_differ_checked stC7n "y" (.single "py") "B" = true ∧
    (∃ p : Bool × FlowState,
      build_takes cfgC7 1 stageC7B [] true stC7n = .ok p ∧ p.1 = true) ∧
    (∃ p : Bool × FlowState,
      build_dep cfgC7 4 "t" stC7run = .ok p ∧
      p.1 = true ∧ stageC7B.name ∈ p.2.execs) := by
  refine ⟨rfl, ?_, ?_, ?_⟩
  · exact c7_nocache_forces_rebuild.1 stC7n "y" (.single "py") "B" rfl
  · exact ⟨(true, stC7n), rfl,
      c7_nocache_forces_rebuild.2.1 cfgC7 1 stageC7B [] stC7n true stC7n rfl⟩
  · refine ⟨_, rfl, ?_⟩
    exact c7_nocache_forces_rebuild.2.2 cfgC7 3 "t" stC7run (.single "pt") stageC7B _ _
      rfl rfl rfl rfl rfl rfl

/-! ## C2 warm-run lemmas -/

/-- Every stage recorded by the registration loop is the stage being
registered or was in the map before. -/
theorem mem_register_outputs (stage : Stage) :
    ∀ (os : List DependencySpec) (m m2 : List (String × Stage)),
      register_outputs stage os m = .ok m2 →
      ∀ x ∈ m2, x.2 = stage ∨ x ∈ m
  | [], m, m2, h => by
    cases h
    exact fun x hx => .inr hx
  | o :: os, m, m2, h => by
    simp only [register_outputs] at h
    split at h
    · intro x hx
      rcases mem_register_outputs stage os _ m2 h x hx with h2 | h2
      · exact .inl h2
      · rcases mem_setA x o.name stage m h2 with h3 | h3
        · exact .inl (by rw [h3])
        · exact .inr h3
    · split at h
      · exact mem_register_outputs stage os m m2 h
      · cases h

/-- Every stage recorded by the ownership-map fold comes from the stage
list or was in the accumulator. -/
theorem mem_map_outputs_from :
    ∀ (ss : List Stage) (m m2 : List (String × Stage)),
      map_outputs_to_stages_from m ss = .ok m2 →
      ∀ x ∈ m2, x.2 ∈ ss ∨ x ∈ m
  | [], m, m2, h => by
    cases h
    exact fun x hx => .inr hx
  | stg :: ss, m, m2, h => by
    simp only [map_outputs_to_stages_from] at h
    split at h
    · cases h
    · rename_i m3 hreg
      intro x hx
      rcases mem_map_outputs_from ss m3 m2 h x hx with h2 | h2
      · exact .inl (List.mem_cons_of_mem _ h2)
      · rcases mem_register_outputs stg stg.produces m m3 hreg x h2 with h3 | h3
        · exact .inl (by simp [h3])
        · exact .inr h3

/-- The promise-validation loop only removes ownership-map entries. -/
theorem verify_outputs_os_sub (cfg : FlowConfig) (provider : Stage)
    (outputs : List (String × Option DepPath)) :
    ∀ (produces : List DependencySpec) (st st2 : FlowState),
      verify_outputs cfg provider outputs produces st = .ok st2 →
      ∀ x, x ∈ st2.os_map → x ∈ st.os_map
  | [], st, st2, h => by
    cases h
    exact fun x hx => hx
  | o :: os, st, st2, h => by
    simp only [verify_outputs] at h
    split at h
    · cases h
    · rename_i st3 hpop
      intro x hx
      have hsub : ∀ y, y ∈ st3.os_map → y ∈ st.os_map := by
        split at hpop
        · split at hpop
          · cases hpop
          · split at hpop
            · cases hpop
            · cases hpop
              exact fun y hy => mem_eraseA y o.name st.os_map hy
        · cases hpop
          exact fun y hy => hy
      split at h <;>
      · exact hsub x (verify_outputs_os_sub cfg provider outputs os _ st2 h x hx)

/-- When every predicted output that resolves to a value exists on
storage, the missing-output scheduling loop leaves the state untouched. -/
theorem add_run_warm (provider : Stage) :
    ∀ (outs : List (String × Option DepPath)) (st : FlowState),
      (∀ p v, (p, some v) ∈ outs → req_exists st.fs v = .ok true) →
      add_run_for_missing_outputs provider outs st = .ok st
  | [], _, _ => rfl
  | (n, none) :: rest, st, h => by
    simp only [add_run_for_missing_outputs]
    exact add_run_warm provider rest st (fun p v hm => h p v (List.mem_cons_of_mem _ hm))
  | (n, some op) :: rest, st, h => by
    have hre : req_exists st.fs op = .ok true := h n op (by simp)
    simp only [add_run_for_missing_outputs, hre, if_true]
    exact add_run_warm provider rest st (fun p v hm => h p v (List.mem_cons_of_mem _ hm))

/-- In a warm state every will-cause-rebuild verdict is false. -/
theorem will_cause_rebuild_warm (cfg : FlowConfig) (fs : Fs) (c : F4Cache)
    (H3 : ∀ v, ValOf cfg v → req_exists fs v = .ok true)
    (H2 : ∀ s ∈ cfg.stages, ∀ v, ValOf cfg v → dep_differ fs c s.name v = false)
    (st : FlowState) (take : DependencySpec) (provider : Stage)
    (hw : WarmInv cfg fs c st) (hp : provider ∈ cfg.stages) :
    will_cause_rebuild st take provider = .ok false := by
  obtain ⟨h1, h2, h5, h3, h4⟩ := hw
  simp only [will_cause_rebuild]
  rcases hj : (lookupA take.name st.dep_paths).join with _ | tp
  · rfl
  · have hlk : lookupA take.name st.dep_paths = some (some tp) := Option.join_eq_some.mp hj
    have hval : ValOf cfg tp := h2 take.name tp (lookupA_mem _ _ _ hlk)
    have hre : req_exists fs tp = .ok true := H3 tp hval
    simp only [FlowState.dep_will_differ_checked, h4, dep_will_differ, h1, h3, hre]
    rcases ho : lookupA take.name st.os_map with _ | p <;>
      simp [ho, H2 provider hp tp hval]

/-- The finish step of the resolver keeps a warm state warm: predicted
outputs exist on storage so nothing is scheduled, and every new resolved
path is a module prediction. -/
theorem resolve_finish_warm (cfg : FlowConfig) (fs : Fs) (c : F4Cache)
    (H3 : ∀ v, ValOf cfg v → req_exists fs v = .ok true)
    (provider : Stage) (st st2 : FlowState)
    (hw : WarmInv cfg fs c st)
    (h : resolve_finish cfg provider st = .ok st2) : WarmInv cfg fs c st2 := by
  obtain ⟨h1, h2, h5, h3, h4⟩ := hw
  simp only [resolve_finish] at h
  set OUTS := (cfg.modules provider.name).map
    (config_mod_runctx provider
      (get_stage_values_override (cfg.stage_values provider.name)
        (ovd_get provider.name st.value_overrides))
      st.dep_paths cfg.dependency_overrides) with hO
  split at h
  · cases h
  · have hout : ∀ p v, (p, some v) ∈ OUTS → req_exists ({ st with stages_checked := st.stages_checked ++ [provider.name], dep_paths := updateA st.dep_paths OUTS } : FlowState).fs v = .ok true := by
      intro p v hm
      rw [hO] at hm
      show req_exists st.fs v = .ok true
      rw [h3]
      exact H3 v (.inr ⟨provider.name, _, p, hm⟩)
    have hadd := add_run_warm provider OUTS { st with stages_checked := st.stages_checked ++ [provider.name], dep_paths := updateA st.dep_paths OUTS } hout
    rw [hadd] at h
    have hvs := verify_outputs_state cfg provider OUTS provider.produces _ _ h
    have hos := verify_outputs_os_sub cfg provider OUTS provider.produces _ _ h
    refine ⟨?_, ?_, ?_, ?_, ?_⟩
    · rw [hvs.2.2.1]
      exact h1
    · intro n v hm
      rw [hvs.2.1] at hm
      rcases mem_updateA (n, some v) OUTS st.dep_paths hm with hA | hB
      · exact h2 n v hA
      · rw [hO] at hB
        exact .inr ⟨provider.name, _, n, hB⟩
    · intro n sg hm
      exact h5 n sg (hos (n, sg) hm)
    · rw [hvs.2.2.2.1]
      exact h3
    · rw [hvs.2.2.2.2.1]
      exact h4

/-- The resolution pass keeps a warm state warm: no verdict fires, so the
run set stays empty and every resolved path stays a configuration value. -/
theorem resolve_warm (cfg : FlowConfig) (fs : Fs) (c : F4Cache)
    (H3 : ∀ v, ValOf cfg v → req_exists fs v = .ok true)
    (H2 : ∀ s ∈ cfg.stages, ∀ v, ValOf cfg v → dep_differ fs c s.name v = false) :
    ∀ fuel : Nat,
      (∀ (dep : String) (st st2 : FlowState), WarmInv cfg fs c st →
        resolve_dependencies cfg fuel dep st = .ok st2 → WarmInv cfg fs c st2) ∧
      (∀ (provider : Stage) (tks : List DependencySpec) (st : FlowState) (b : Bool)
          (st2 : FlowState), WarmInv cfg fs c st → provider ∈ cfg.stages →
        resolve_takes cfg fuel provider tks st = .ok (b, st2) → WarmInv cfg fs c st2)
  | 0 => ⟨(fun _ _ _ _ h => by cases h), (fun _ _ _ _ _ _ _ h => by cases h)⟩
  | fuel + 1 => by
    obtain ⟨ih1, ih2⟩ := resolve_warm cfg fs c H3 H2 fuel
    constructor
    · intro dep st st2 hw h
      simp only [resolve_dependencies] at h
      have hwi : WarmInv cfg fs c (init_rebuild_counter dep st) := by
        obtain ⟨g1, g2, g5, g3, g4⟩ := hw
        simp only [init_rebuild_counter]
        split
        · exact ⟨g1, g2, g5, g3, g4⟩
        · exact ⟨g1, g2, g5, g3, g4⟩
      split at h
      · cases h
        exact hwi
      · split at h
        · cases h
          exact hwi
        · rename_i provider ho
          split at h
          · cases h
            exact hwi
          · split at h
            · cases h
            · rename_i cont st3 htk
              have hp : provider ∈ cfg.stages :=
                hwi.2.2.1 dep provider (lookupA_mem _ _ _ ho)
              have hw3 := ih2 provider _ _ _ _ hwi hp htk
              split at h
              · exact resolve_finish_warm cfg fs c H3 provider _ st2 hw3 h
              · cases h
                exact hw3
    · intro provider tks st b st2 hw hp h
      cases tks with
      | nil =>
        simp only [resolve_takes] at h
        cases h
        exact hw
      | cons take rest =>
        simp only [resolve_takes] at h
        split at h
        · cases h
        · rename_i st3 hres
          have hw3 := ih1 _ _ _ hw hres
          have hw4 : WarmInv cfg fs c { st3 with value_overrides := ovd_set provider.name (dep_value_str take.name) ((lookupA take.name st3.dep_paths).join) st3.value_overrides } :=
            ⟨hw3.1, hw3.2.1, hw3.2.2.1, hw3.2.2.2.1, hw3.2.2.2.2⟩
          split at h
          · cases h
            exact ⟨hw4.1, hw4.2.1, hw4.2.2.1, hw4.2.2.2.1, hw4.2.2.2.2⟩
          · split at h
            · cases h
            · rename_i wd hwc
              have hwc2 := will_cause_rebuild_warm cfg fs c H3 H2 _ take provider hw4 hp
              have hwd : wd = false := by
                have hx := hwc2.symm.trans hwc
                cases hx
                rfl
              subst hwd
              simp only [Bool.false_eq_true, if_false] at h
              exact ih2 provider rest _ _ _ hw4 hp h

/-- Building any dependency in a warm state takes a fast path that never
executes a module: the execution log is unchanged. -/
theorem build_dep_warm (cfg : FlowConfig) (fs : Fs) (c : F4Cache)
    (H3 : ∀ v, ValOf cfg v → req_exists fs v = .ok true)
    (fuel : Nat) (dep : String) (st : FlowState) (b : Bool) (st2 : FlowState)
    (hw : WarmInv cfg fs c st)
    (h : build_dep cfg (fuel + 1) dep st = .ok (b, st2)) : st2.execs = st.execs := by
  obtain ⟨h1, h2, h5, h3, h4⟩ := hw
  simp only [build_dep, Option.join] at h
  rcases hj : (lookupA dep st.dep_paths).bind id with _ | pv
  · rw [hj] at h
    cases h
    rfl
  · rw [hj] at h
    have hlk : lookupA dep st.dep_paths = some (some pv) := by
      have hj2 : (lookupA dep st.dep_paths).join = some pv := hj
      exact Option.join_eq_some.mp hj2
    have hval : ValOf cfg pv := h2 dep pv (lookupA_mem _ _ _ hlk)
    have hre : req_exists fs pv = .ok true := H3 pv hval
    rcases htr : pv.truthy with _ | _
    · simp only [htr, Bool.not_false, if_true] at h
      cases h
      rfl
    · simp only [htr, Bool.not_true, Bool.false_eq_true, if_false, h3, hre, h1] at h
      rcases ho : lookupA dep st.os_map with _ | p <;>
        simp only [ho, List.contains_nil, Bool.not_false, Bool.and_true, if_true] at h <;>
        · cases h
          rfl

/-- Whatever `execute` does after the build (cache registration of the
target and the final report), it does not touch the execution log. -/
theorem flow_execute_execs (cfg : FlowConfig) (target : String) (fuel : Nat)
    (st stF : FlowState) (h : flow_execute cfg target fuel st = .ok stF) :
    ∃ b stB, build_dep cfg fuel target st = .ok (b, stB) ∧ stF.execs = stB.execs := by
  simp only [flow_execute] at h
  split at h
  · cases h
  · rename_i b stB hbd
    refine ⟨b, stB, hbd, ?_⟩
    split at h
    · cases h
    · rename_i stC hac
      have hce : stC.execs = stB.execs := by
        split at hac
        · rename_i c0 hc0
          split at hac
          · cases hac
          · split at hac
            · cases hac
            · cases hac
              rfl
        · cases hac
          rfl
      split at h
      · cases h
      · cases h
        exact hce

/-! ## C2: idempotence of a warm run -/

/-- C2 (amended): a run over a warm store performs zero module executions.
Warm means: every artifact path value the configuration can produce (an
explicit dependency override or a module prediction) exists on storage,
and the Staleness Oracle reports no difference for any such value against
any configured stage.  Under these hypotheses a completed run has an empty
execution log: planning schedules nothing and the build takes the
fast path everywhere.  (The original claim - that completing a run and
changing nothing suffices - fails: the first run can leave a value
resolvable that the first planning pass could not resolve, whose cache
record for its consumer is cold, so the second run schedules and executes
its consumer; see the counterexample.) -/
theorem c2_warm_run_executes_nothing (cfg : FlowConfig) (target : String) (fs : Fs)
    (c : F4Cache) (fuel : Nat) (stF : FlowState)
    (H3 : ∀ v, ValOf cfg v → req_exists fs v = .ok true)
    (H2 : ∀ s ∈ cfg.stages, ∀ v, ValOf cfg v → dep_differ fs c s.name v = false)
    (hrun : runFlow cfg target fs (some c) fuel = .ok stF) :
    stF.execs = [] := by
  simp only [runFlow] at hrun
  split at hrun
  · cases hrun
  · rename_i stP hini
    simp only [flow_init] at hini
    split at hini
    · cases hini
    · rename_i osm hosm
      split at hini
      · cases hini
      · rename_i deps hdeps
        have hw0 : WarmInv cfg fs c { os_map := osm, dep_paths := deps.map (fun nv => (nv.1, some nv.2)), run_stages := [], deps_rebuilds := [], value_overrides := [], stages_checked := [], skip_dep_warnings := [], fs := fs, f4cache := some c, diags := [], execs := [] } := by
          refine ⟨rfl, ?_, ?_, rfl, rfl⟩
          · intro n v hm
            simp only [List.mem_map] at hm
            obtain ⟨nv, hnv, heq⟩ := hm
            have hv : nv = (n, v) := by
              cases nv
              simp only [Prod.mk.injEq, Option.some.injEq] at heq
              simp [heq.1, heq.2]
            rw [hv] at hnv
            have hmem := mem_filter_existing_deps fs (n, v) cfg.dependency_overrides deps hdeps hnv
            exact .inl ⟨n, hmem⟩
          · intro n sg hm
            have hosm2 : map_outputs_to_stages_from [] cfg.stages = .ok osm := hosm
            rcases mem_map_outputs_from cfg.stages [] osm hosm2 (n, sg) hm with h2 | h2
            · exact h2
            · cases h2
        have hwP := (resolve_warm cfg fs c H3 H2 fuel).1 target _ stP hw0 hini
        have hexP : stP.execs = [] := ((resolve_no_exec cfg fuel).1 target _ stP hini).1
        obtain ⟨b, stB, hbd, hex⟩ := flow_execute_execs cfg target fuel stP stF hrun
        cases fuel with
        | zero => cases hbd
        | succ f =>
          have hexB := build_dep_warm cfg fs c H3 f target stP b stB hwP hbd
          rw [hex, hexB, hexP]

/-- C2 witness: the warm-run theorem applied at a concrete warm scenario:
one stage W whose only output exists on storage and is recorded current
for consumer W; the completed run executes nothing. -/
theorem c2_warm_run_executes_nothing_witness :
    ∃ stF, runFlow cfgW "w" fsW (some cW) 10 = .ok stF ∧ stF.execs = [] := by
  refine ⟨_, rfl, ?_⟩
  refine c2_warm_run_executes_nothing cfgW "w" fsW cW 10 _ ?_ ?_ rfl
  · intro v hv
    rcases hv with ⟨n, hm⟩ | ⟨sn, ctx, n, hm⟩
    · simp [cfgW] at hm
    · simp [cfgW, constModule] at hm
      rw [hm.2]
      rfl
  · intro sg hsg v hv
    rcases hv with ⟨n, hm⟩ | ⟨sn, ctx, n, hm⟩
    · simp [cfgW] at hm
    · simp [cfgW, constModule] at hm
      simp [cfgW] at hsg
      rw [hm.2, hsg]
      rfl

/-! ## Lemmas for the promise validation -/

theorem verify_outputs_clean (cfg : FlowConfig) (provider : Stage)
    (outputs : List (String × Option DepPath)) :
    ∀ (produces : List DependencySpec) (st : FlowState),
      (produces.map DependencySpec.name).Nodup →
      (st.os_map.map Prod.fst).Nodup →
      (∀ o ∈ produces, (lookupA o.name outputs).isNone = true → ¬ fatal_absent cfg o) →
      (∀ o ∈ produces, (lookupA o.name outputs).isNone = true →
        (lookupA o.name st.os_map).isSome = true) →
      ∃ st2, verify_outputs cfg provider outputs produces st = .ok st2 ∧
        (∀ o ∈ produces, (lookupA o.name outputs).isNone = true →
          lookupA o.name st2.os_map = none) ∧
        (∀ k, (∀ o ∈ produces, o.name ≠ k) → lookupA k st2.os_map = lookupA k st.os_map) ∧
        st2.execs = st.execs
  | [], st, _, _, _, _ =>
    ⟨st, rfl, (by simp), (fun k _ => rfl), rfl⟩
  | o :: os, st, hnd, hook, hnf, hin => by
    have hnd2 : (∀ x ∈ os, ¬ x.name = o.name) ∧ (os.map DependencySpec.name).Nodup := by
      simpa using hnd
    have hndos := hnd2.2
    have hono : o.name ∉ os.map DependencySpec.name := by
      intro hm
      rcases List.mem_map.mp hm with ⟨x, hx, he⟩
      exact hnd2.1 x hx he
    by_cases habs : (lookupA o.name outputs).isNone = true
    · have hnfo : ¬ fatal_absent cfg o := hnf o (by simp) habs
      have hino : (lookupA o.name st.os_map).isSome = true := hin o (by simp) habs
      have hjoin : (lookupA o.name outputs).join = none := by
        rcases hl : lookupA o.name outputs with _ | v
        · rfl
        · rw [hl] at habs; cases habs
      rcases hsm : lookupA o.name st.os_map with _ | s0
      · rw [hsm] at hino; cases hino
      · have hfc : ¬ (o.spec = .req ∨ (o.spec = .demand ∧
            (lookupA o.name cfg.dependency_overrides).isSome)) := by
          simpa [fatal_absent] using hnfo
        have hstep : verify_outputs cfg provider outputs (o :: os) st =
            verify_outputs cfg provider outputs os { st with os_map := eraseA o.name st.os_map } := by
          simp only [verify_outputs, habs, if_true, if_neg hfc, hsm, hjoin]
        set stP : FlowState := { st with os_map := eraseA o.name st.os_map } with hstP
        have hookP : (stP.os_map.map Prod.fst).Nodup := by
          rw [hstP]
          exact List.Nodup.sublist ((eraseA_sublist o.name st.os_map).map Prod.fst) hook
        have hinP : ∀ o2 ∈ os, (lookupA o2.name outputs).isNone = true →
            (lookupA o2.name stP.os_map).isSome = true := by
          intro o2 ho2 habs2
          have hne : o2.name ≠ o.name := by
            intro he
            exact hono (he ▸ List.mem_map_of_mem DependencySpec.name ho2)
          rw [hstP]
          show (lookupA o2.name (eraseA o.name st.os_map)).isSome = true
          rw [lookupA_eraseA_ne o2.name o.name hne]
          exact hin o2 (List.mem_cons_of_mem _ ho2) habs2
        rcases verify_outputs_clean cfg provider outputs os stP hndos hookP
          (fun o2 ho2 => hnf o2 (List.mem_cons_of_mem _ ho2)) hinP
          with ⟨st2, hv, hnone, hpres, hex⟩
        refine ⟨st2, by rw [hstep]; exact hv, ?_, ?_, by rw [hex]⟩
        · intro o2 ho2 habs2
          rcases List.mem_cons.mp ho2 with he | he
          · subst he
            rw [hpres o2.name (fun o3 ho3 hne =>
              hono (hne ▸ List.mem_map_of_mem DependencySpec.name ho3))]
            show lookupA o2.name (eraseA o2.name st.os_map) = none
            exact lookupA_eraseA_self o2.name st.os_map hook
          · exact hnone o2 he habs2
        · intro k hk
          rw [hpres k (fun o3 ho3 => hk o3 (List.mem_cons_of_mem _ ho3))]
          show lookupA k (eraseA o.name st.os_map) = lookupA k st.os_map
          exact lookupA_eraseA_ne k o.name (fun he => hk o (by simp) he.symm) st.os_map
    · rcases hj : (lookupA o.name outputs).join with _ | v
      · have hstep : verify_outputs cfg provider outputs (o :: os) st =
            verify_outputs cfg provider outputs os st := by
          simp only [verify_outputs, if_neg habs, hj]
        rcases verify_outputs_clean cfg provider outputs os st hndos hook
          (fun o2 ho2 => hnf o2 (List.mem_cons_of_mem _ ho2))
          (fun o2 ho2 h2 => hin o2 (List.mem_cons_of_mem _ ho2) h2)
          with ⟨st2, hv, hnone, hpres, hex⟩
        refine ⟨st2, by rw [hstep]; exact hv, ?_, ?_, hex⟩
        · intro o2 ho2 habs3
          rcases List.mem_cons.mp ho2 with he | he
          · subst he
            exact absurd habs3 habs
          · exact hnone o2 he habs3
        · intro k hk
          exact hpres k (fun o3 ho3 => hk o3 (List.mem_cons_of_mem _ ho3))
      · set stW : FlowState := { st with value_overrides := ovd_set provider.name (dep_value_str o.name) (some v) st.value_overrides } with hWdef
        have hstep : verify_outputs cfg provider outputs (o :: os) st =
            verify_outputs cfg provider outputs os stW := by
          simp only [verify_outputs, if_neg habs, hj, hWdef]
        rcases verify_outputs_clean cfg provider outputs os stW hndos (by rw [hWdef]; exact hook)
          (fun o2 ho2 => hnf o2 (List.mem_cons_of_mem _ ho2))
          (fun o2 ho2 h2 => hin o2 (List.mem_cons_of_mem _ ho2) h2)
          with ⟨st2, hv, hnone, hpres, hex⟩
        refine ⟨st2, by rw [hstep]; exact hv, ?_, ?_, by rw [hex]⟩
        · intro o2 ho2 habs3
          rcases List.mem_cons.mp ho2 with he | he
          · subst he
            exact absurd habs3 habs
          · exact hnone o2 he habs3
        · intro k hk
          exact hpres k (fun o3 ho3 => hk o3 (List.mem_cons_of_mem _ ho3))

theorem verify_outputs_fatal (cfg : FlowConfig) (provider : Stage)
    (outputs : List (String × Option DepPath)) :
    ∀ (produces : List DependencySpec) (st : FlowState),
      (produces.map DependencySpec.name).Nodup →
      (st.os_map.map Prod.fst).Nodup →
      (∀ o ∈ produces, (lookupA o.name outputs).isNone = true → ¬ fatal_absent cfg o →
        (lookupA o.name st.os_map).isSome = true) →
      (∃ o, o ∈ produces ∧ (lookupA o.name outputs).isNone = true ∧ fatal_absent cfg o) →
      ∃ o, o ∈ produces ∧ (lookupA o.name outputs).isNone = true ∧ fatal_absent cfg o ∧
        verify_outputs cfg provider outputs produces st =
          .error (.fatalMissingOutput provider.name o.name)
  | [], st, _, _, _, hex => by
    rcases hex with ⟨o, ho, _⟩
    cases ho
  | o :: os, st, hnd, hook, hin, hex => by
    have hnd2 : (∀ x ∈ os, ¬ x.name = o.name) ∧ (os.map DependencySpec.name).Nodup := by
      simpa using hnd
    have hono : o.name ∉ os.map DependencySpec.name := by
      intro hm
      rcases List.mem_map.mp hm with ⟨x, hx, he⟩
      exact hnd2.1 x hx he
    by_cases habs : (lookupA o.name outputs).isNone = true
    · by_cases hf : fatal_absent cfg o
      · refine ⟨o, by simp, habs, hf, ?_⟩
        have hfc : o.spec = .req ∨ (o.spec = .demand ∧
            (lookupA o.name cfg.dependency_overrides).isSome) := by
          simpa [fatal_absent] using hf
        simp only [verify_outputs, habs, if_true, if_pos hfc]
      · have hino : (lookupA o.name st.os_map).isSome = true := hin o (by simp) habs hf
        have hjoin : (lookupA o.name outputs).join = none := by
          rcases hl : lookupA o.name outputs with _ | v
          · rfl
          · rw [hl] at habs; cases habs
        rcases hsm : lookupA o.name st.os_map with _ | s0
        · rw [hsm] at hino; cases hino
        · have hfc : ¬ (o.spec = .req ∨ (o.spec = .demand ∧
              (lookupA o.name cfg.dependency_overrides).isSome)) := by
            simpa [fatal_absent] using hf
          have hstep : verify_outputs cfg provider outputs (o :: os) st =
              verify_outputs cfg provider outputs os { st with os_map := eraseA o.name st.os_map } := by
            simp only [verify_outputs, habs, if_true, if_neg hfc, hsm, hjoin]
          set stP : FlowState := { st with os_map := eraseA o.name st.os_map } with hstP
          have hookP : (stP.os_map.map Prod.fst).Nodup := by
            rw [hstP]
            exact List.Nodup.sublist ((eraseA_sublist o.name st.os_map).map Prod.fst) hook
          have hinP : ∀ o2 ∈ os, (lookupA o2.name outputs).isNone = true →
              ¬ fatal_absent cfg o2 → (lookupA o2.name stP.os_map).isSome = true := by
            intro o2 ho2 habs2 hnf2
            have hne : o2.name ≠ o.name := by
              intro he
              exact hono (he ▸ List.mem_map_of_mem DependencySpec.name ho2)
            rw [hstP]
            show (lookupA o2.name (eraseA o.name st.os_map)).isSome = true
            rw [lookupA_eraseA_ne o2.name o.name hne]
            exact hin o2 (List.mem_cons_of_mem _ ho2) habs2 hnf2
          have hexos : ∃ o2, o2 ∈ os ∧ (lookupA o2.name outputs).isNone = true ∧
              fatal_absent cfg o2 := by
            rcases hex with ⟨o2, ho2, habs2, hf2⟩
            rcases List.mem_cons.mp ho2 with he | he
            · subst he
              exact absurd hf2 hf
            · exact ⟨o2, he, habs2, hf2⟩
          rcases verify_outputs_fatal cfg provider outputs os stP hnd2.2 hookP hinP hexos
            with ⟨o2, ho2, habs2, hf2, hv⟩
          exact ⟨o2, List.mem_cons_of_mem _ ho2, habs2, hf2, by rw [hstep]; exact hv⟩
    · rcases hj : (lookupA o.name outputs).join with _ | v
      · have hstep : verify_outputs cfg provider outputs (o :: os) st =
            verify_outputs cfg provider outputs os st := by
          simp only [verify_outputs, if_neg habs, hj]
        have hexos : ∃ o2, o2 ∈ os ∧ (lookupA o2.name outputs).isNone = true ∧
            fatal_absent cfg o2 := by
          rcases hex with ⟨o2, ho2, habs2, hf2⟩
          rcases List.mem_cons.mp ho2 with he | he
          · subst he
            exact absurd habs2 habs
          · exact ⟨o2, he, habs2, hf2⟩
        rcases verify_outputs_fatal cfg provider outputs os st hnd2.2 hook
          (fun o2 ho2 h2 h3 => hin o2 (List.mem_cons_of_mem _ ho2) h2 h3) hexos
          with ⟨o2, ho2, habs2, hf2, hv⟩
        exact ⟨o2, List.mem_cons_of_mem _ ho2, habs2, hf2, by rw [hstep]; exact hv⟩
      · set stW : FlowState := { st with value_overrides := ovd_set provider.name (dep_value_str o.name) (some v) st.value_overrides } with hWdef
        have hstep : verify_outputs cfg provider outputs (o :: os) st =
            verify_outputs cfg provider outputs os stW := by
          simp only [verify_outputs, if_neg habs, hj, hWdef]
        have hexos : ∃ o2, o2 ∈ os ∧ (lookupA o2.name outputs).isNone = true ∧
            fatal_absent cfg o2 := by
          rcases hex with ⟨o2, ho2, habs2, hf2⟩
          rcases List.mem_cons.mp ho2 with he | he
          · subst he
            exact absurd habs2 habs
          · exact ⟨o2, he, habs2, hf2⟩
        rcases verify_outputs_fatal cfg provider outputs os stW hnd2.2
          (by rw [hWdef]; exact hook)
          (fun o2 ho2 h2 h3 => hin o2 (List.mem_cons_of_mem _ ho2) h2 h3) hexos
          with ⟨o2, ho2, habs2, hf2, hv⟩
        exact ⟨o2, List.mem_cons_of_mem _ ho2, habs2, hf2, by rw [hstep]; exact hv⟩

/-! ## C1: the skip-rebuild optimization -/

/-- C1: during execution of build for a dependency whose providing stage is
scheduled to run or whose path does not exist, once all inputs have been
recursively built and update-compared with no input differing, and the
resolved path of the dependency exists on storage, the build skips the
expensive execute operation, emits the skip diagnostic, and reports
success: the result state is the post-inputs state with only the diagnostic
appended, so the provider is not added to the execution log. -/
theorem c1_skip_rebuild_on_unchanged_inputs
    (cfg : FlowConfig) (fuel : Nat) (dep : String) (st st2 : FlowState)
    (pv : DepPath) (provider : Stage) (exb : Bool)
    (hpaths : (lookupA dep st.dep_paths).join = some pv)
    (htruthy : pv.truthy = true)
    (hprov : lookupA dep st.os_map = some provider)
    (hex : req_exists st.fs pv = .ok exb)
    (henter : exb = false ∨ provider.name ∈ st.run_stages)
    (htakes : build_takes cfg fuel provider provider.takes st.f4cache.isNone st =
      .ok (false, st2))
    (hex2 : req_exists st2.fs pv = .ok true) :
    build_dep cfg (fuel + 1) dep st =
      .ok (true, { st2 with diags := st2.diags ++ [.skipRebuild dep] }) ∧
    ({ st2 with diags := st2.diags ++ [.skipRebuild dep] } : FlowState).execs = st2.execs := by
  have hjb : (lookupA dep st.dep_paths).bind (fun a => a) = some pv := by
    simpa [Option.join] using hpaths
  refine ⟨?_, rfl⟩
  have hg : (exb && !(decide (provider.name ∈ st.run_stages))) = false := by
    rcases henter with h | h
    · simp [h]
    · simp [h]
  simp [build_dep, hjb, htruthy, hprov, hex, hg, htakes, hex2]

/-- C1 witness: the skip theorem applied at a concrete state: provider A
with no inputs is in the run set, the dependency exists, caching is
enabled, so the input loop yields no difference and the build skips. -/
theorem c1_skip_rebuild_on_unchanged_inputs_witness :
    build_dep cfgC7 2 "d" stC1 =
      .ok (true, { stC1 with diags := stC1.diags ++ [.skipRebuild "d"] }) ∧
    ({ stC1 with diags := stC1.diags ++ [.skipRebuild "d"] } : FlowState).execs =
      stC1.execs :=
  c1_skip_rebuild_on_unchanged_inputs cfgC7 1 "d" stC1 stC1 (.single "pd") stageC7A true
    (by simp [stC1, lookupA])
    (by simp [DepPath.truthy])
    (by simp [stC1, lookupA])
    (by simp [stC1, req_exists, fsExists, lookupA])
    (.inr (by simp [stC1, stageC7A]))
    (by simp [stC1, build_takes, stageC7A])
    (by simp [stC1, req_exists, fsExists, lookupA])

/-! ## C4: the will-cause-rebuild verdict -/

/-- C4: during planning, the will-cause-rebuild verdict of an input is:
false when the path is absent; true when the path resolves but does not
exist on storage; and, when it exists, true exactly when the producing
stage of the input is already in the run set or the Staleness Oracle
reports differs for the (path, this stage) pair (with caching disabled the
oracle reports differs unconditionally).  When the verdict is true the
provider is added to the run set and the rebuild counter of the input
artifact is incremented, and the loop continues on that marked state; when
it is false the loop continues unmarked. -/
theorem c4_will_cause_rebuild_verdict :
    (∀ (st : FlowState) (take : DependencySpec) (provider : Stage),
      (lookupA take.name st.dep_paths).join = none →
      will_cause_rebuild st take provider = .ok false) ∧
    (∀ (st : FlowState) (take : DependencySpec) (provider : Stage) (tp : DepPath),
      (lookupA take.name st.dep_paths).join = some tp →
      req_exists st.fs tp = .ok false →
      will_cause_rebuild st take provider = .ok true) ∧
    (∀ (st : FlowState) (take : DependencySpec) (provider : Stage) (tp : DepPath),
      (lookupA take.name st.dep_paths).join = some tp →
      req_exists st.fs tp = .ok true →
      will_cause_rebuild st take provider =
        .ok (provider_in_run_set st take.name || oracle_differs st tp provider.name)) ∧
    (∀ (cfg : FlowConfig) (fuel : Nat) (provider : Stage) (take : DependencySpec)
        (rest : List DependencySpec) (st0 st st1 : FlowState) (k : Nat),
      resolve_dependencies cfg fuel take.name st0 = .ok st →
      st1 = stash_take_path provider take.name st →
      (truthyO ((lookupA take.name st.dep_paths).join) = true ∨ take.spec ≠ .req) →
      will_cause_rebuild st1 take provider = .ok true →
      lookupA take.name st.deps_rebuilds = some k →
      resolve_takes cfg (fuel + 1) provider (take :: rest) st0 =
        resolve_takes cfg fuel provider rest (mark_rebuild provider take.name k st1)) ∧
    (∀ (cfg : FlowConfig) (fuel : Nat) (provider : Stage) (take : DependencySpec)
        (rest : List DependencySpec) (st0 st st1 : FlowState),
      resolve_dependencies cfg fuel take.name st0 = .ok st →
      st1 = stash_take_path provider take.name st →
      (truthyO ((lookupA take.name st.dep_paths).join) = true ∨ take.spec ≠ .req) →
      will_cause_rebuild st1 take provider = .ok false →
      resolve_takes cfg (fuel + 1) provider (take :: rest) st0 =
        resolve_takes cfg fuel provider rest st1) := by
  refine ⟨?_, ?_, ?_, ?_, ?_⟩
  · intro st take provider hj
    have hjb : (lookupA take.name st.dep_paths).bind (fun a => a) = none := by
      simpa [Option.join] using hj
    simp [will_cause_rebuild, hjb]
  · intro st take provider tp hj hex
    have hjb : (lookupA take.name st.dep_paths).bind (fun a => a) = some tp := by
      simpa [Option.join] using hj
    simp [will_cause_rebuild, hjb, hex]
  · intro st take provider tp hj hex
    have hjb : (lookupA take.name st.dep_paths).bind (fun a => a) = some tp := by
      simpa [Option.join] using hj
    simp [will_cause_rebuild, hjb, hex, dep_will_differ_checked_eq]
  · intro cfg fuel provider take rest st0 st st1 k hres hst1 hguard hwd hk
    subst hst1
    rw [resolve_takes_cons cfg fuel provider take rest st0 st hres]
    simp only [stash_take_path] at hwd
    have hcond : ¬ (¬ truthyO ((lookupA take.name st.dep_paths).join) = true ∧
        take.spec = .req) := by
      rcases hguard with h | h
      · exact fun hc => hc.1 h
      · exact fun hc => h hc.2
    simp only [stash_take_path, if_neg hcond, hwd, hk]
    simp
  · intro cfg fuel provider take rest st0 st st1 hres hst1 hguard hwd
    subst hst1
    rw [resolve_takes_cons cfg fuel provider take rest st0 st hres]
    simp only [stash_take_path] at hwd
    have hcond : ¬ (¬ truthyO ((lookupA take.name st.dep_paths).join) = true ∧
        take.spec = .req) := by
      rcases hguard with h | h
      · exact fun hc => hc.1 h
      · exact fun hc => h hc.2
    simp only [stash_take_path, if_neg hcond, hwd]
    simp

/-- C4 witness: the verdict theorem applied at concrete inputs, with each
hypothesis discharged by evaluation: an absent path gives false, a
resolved-but-missing path gives true and marks the stage, an existing path
gives the run-set-or-oracle formula, and a recorded-current path gives
false and continues unmarked. -/
theorem c4_will_cause_rebuild_verdict_witness :
    will_cause_rebuild stC4none (mkDS "m" .maybe) stageC2S = .ok false ∧
    will_cause_rebuild stC4missing (mkDS "x" .req) stageC2S = .ok true ∧
    will_cause_rebuild stC4exists (mkDS "x" .req) stageC2S =
      .ok (provider_in_run_set stC4exists "x" ||
        oracle_differs stC4exists (.single "px") "S") ∧
    resolve_takes cfgC3 2 stageC2S [mkDS "x" .req] stC4missing =
      resolve_takes cfgC3 1 stageC2S []
        (mark_rebuild stageC2S "x" 0 (stash_take_path stageC2S "x" stC4missing)) ∧
    resolve_takes cfgC3 2 stageC2S [mkDS "x" .req] stC4same =
      resolve_takes cfgC3 1 stageC2S [] (stash_take_path stageC2S "x" stC4same) := by
  refine ⟨?_, ?_, ?_, ?_, ?_⟩
  · exact c4_will_cause_rebuild_verdict.1 stC4none (mkDS "m" .maybe) stageC2S
      (by simp [stC4none, mkStateC4, lookupA, mkDS])
  · exact c4_will_cause_rebuild_verdict.2.1 stC4missing (mkDS "x" .req) stageC2S
      (.single "px") (by simp [stC4missing, mkStateC4, lookupA, mkDS])
      (by simp [stC4missing, mkStateC4, req_exists, fsExists, lookupA])
  · exact c4_will_cause_rebuild_verdict.2.2.1 stC4exists (mkDS "x" .req) stageC2S
      (.single "px") (by simp [stC4exists, mkStateC4, lookupA, mkDS])
      (by simp [stC4exists, mkStateC4, req_exists, fsExists, lookupA])
  · exact c4_will_cause_rebuild_verdict.2.2.2.1 cfgC3 1 stageC2S (mkDS "x" .req) []
      stC4missing stC4missing _ 0
      (by simp [resolve_dependencies, init_rebuild_counter, stC4missing, mkStateC4,
        lookupA, mkDS, truthyO, DepPath.truthy])
      rfl
      (by simp [stC4missing, mkStateC4, lookupA, mkDS, truthyO, DepPath.truthy])
      (by simp [stash_take_path, will_cause_rebuild, stC4missing, mkStateC4, lookupA,
        mkDS, ovd_get, ovd_set, setA, dep_value_str, req_exists, fsExists])
      (by simp [stC4missing, mkStateC4, lookupA, mkDS])
  · exact c4_will_cause_rebuild_verdict.2.2.2.2 cfgC3 1 stageC2S (mkDS "x" .req) []
      stC4same stC4same _
      (by simp [resolve_dependencies, init_rebuild_counter, stC4same, mkStateC4,
        lookupA, mkDS, truthyO, DepPath.truthy])
      rfl
      (by simp [stC4same, mkStateC4, lookupA, mkDS, truthyO, DepPath.truthy])
      (by simp [stash_take_path, will_cause_rebuild, stC4same, mkStateC4, lookupA,
        mkDS, ovd_get, ovd_set, setA, dep_value_str, req_exists, fsExists,
        FlowState.dep_will_differ_checked, dep_will_differ, dep_differ, get_status,
        stageC2S])

/-! ## C6: validation of the module promise during planning -/

/-- C6: after the output-path prediction of a stage, every declared output
absent from the prediction that is required, or on-demand and explicitly
requested via a dependency override, makes the validation fail with the
fatal configuration error naming the stage and that missing output; when
no absent output is of that fatal class, validation succeeds, every absent
output is removed from the ownership map (no later lookup finds a producer
for it) while other entries are untouched, and the execution log is
unchanged; moreover a planning failure aborts the whole run before any
module execution.  Output names of one stage are assumed uniquely named
(spec section 3) and the ownership map key-distinct (it is built by
first-writer-wins insertion). -/
theorem c6_promise_validation :
    (∀ (cfg : FlowConfig) (provider : Stage) (outputs : List (String × Option DepPath))
        (st : FlowState),
      (provider.produces.map DependencySpec.name).Nodup →
      (st.os_map.map Prod.fst).Nodup →
      (∀ o ∈ provider.produces, (lookupA o.name outputs).isNone = true →
        ¬ fatal_absent cfg o → (lookupA o.name st.os_map).isSome = true) →
      (∃ o, o ∈ provider.produces ∧ (lookupA o.name outputs).isNone = true ∧
        fatal_absent cfg o) →
      ∃ o, o ∈ provider.produces ∧ (lookupA o.name outputs).isNone = true ∧
        fatal_absent cfg o ∧
        verify_outputs cfg provider outputs provider.produces st =
          .error (.fatalMissingOutput provider.name o.name)) ∧
    (∀ (cfg : FlowConfig) (provider : Stage) (outputs : List (String × Option DepPath))
        (st : FlowState),
      (provider.produces.map DependencySpec.name).Nodup →
      (st.os_map.map Prod.fst).Nodup →
      (∀ o ∈ provider.produces, (lookupA o.name outputs).isNone = true →
        ¬ fatal_absent cfg o) →
      (∀ o ∈ provider.produces, (lookupA o.name outputs).isNone = true →
        (lookupA o.name st.os_map).isSome = true) →
      ∃ st2, verify_outputs cfg provider outputs provider.produces st = .ok st2 ∧
        (∀ o ∈ provider.produces, (lookupA o.name outputs).isNone = true →
          lookupA o.name st2.os_map = none) ∧
        (∀ k, (∀ o ∈ provider.produces, o.name ≠ k) →
          lookupA k st2.os_map = lookupA k st.os_map) ∧
        st2.execs = st.execs) ∧
    (∀ (cfg : FlowConfig) (target : String) (fs : Fs) (c : Option F4Cache) (fuel : Nat)
        (e : Err),
      flow_init cfg target fs c fuel = .error e →
      runFlow cfg target fs c fuel = .error e) := by
  refine ⟨?_, ?_, ?_⟩
  · intro cfg provider outputs st hnd hook hin hex
    exact verify_outputs_fatal cfg provider outputs provider.produces st hnd hook hin hex
  · intro cfg provider outputs st hnd hook hnf hin
    exact verify_outputs_clean cfg provider outputs provider.produces st hnd hook hnf hin
  · intro cfg target fs c fuel e h
    simp only [runFlow, h]

/-- C6 witness: the validation theorem applied at concrete inputs: stage P
of the C5 scenario missing its required output y2 from the prediction
fatals naming P and y2; stage M missing only its maybe output b succeeds
and drops b from the ownership map; and a failing planning aborts the run
(exercised through the third conjunct on an empty stage list, whose
configuration error is no-stages-is-impossible here, so instead the first
run of the C3 scenario is reused: its planning succeeds, hence the third
conjunct is exercised with the duplicate-owner configuration). -/
theorem c6_promise_validation_witness :
    (∃ o, o ∈ stageC5P.produces ∧
      (lookupA o.name [("y1", some (DepPath.single "py1"))]).isNone = true ∧
      fatal_absent cfgC5 o ∧
      verify_outputs cfgC5 stageC5P [("y1", some (DepPath.single "py1"))]
        stageC5P.produces stC6 =
        .error (.fatalMissingOutput stageC5P.name o.name)) ∧
    (∃ st2, verify_outputs cfgC3 stageC6M [("a", some (DepPath.single "pa"))]
        stageC6M.produces stC6 = .ok st2 ∧
      (∀ o ∈ stageC6M.produces,
        (lookupA o.name [("a", some (DepPath.single "pa"))]).isNone = true →
        lookupA o.name st2.os_map = none) ∧
      (∀ k, (∀ o ∈ stageC6M.produces, o.name ≠ k) →
        lookupA k st2.os_map = lookupA k stC6.os_map) ∧
      st2.execs = stC6.execs) ∧
    runFlow cfgC2 "t" [] (some []) 0 = .error .outOfFuel := by
  refine ⟨?_, ?_, ?_⟩
  · refine c6_promise_validation.1 cfgC5 stageC5P [("y1", some (DepPath.single "py1"))] stC6
      (by decide) (by decide) ?_ ?_
    · intro o ho habs hnf
      fin_cases ho <;> simp_all [mkDS, fatal_absent, cfgC5, lookupA, stC6, stageC6M]
    · exact ⟨mkDS "y2" .req, by decide, by decide, by simp [fatal_absent, mkDS]⟩
  · refine c6_promise_validation.2.1 cfgC3 stageC6M [("a", some (DepPath.single "pa"))] stC6
      (by decide) (by decide) ?_ ?_
    · intro o ho habs
      fin_cases ho <;> simp_all [mkDS, fatal_absent, cfgC3, lookupA]
    · intro o ho habs
      fin_cases ho <;> simp_all [mkDS, lookupA, stC6, stageC6M]
  · exact c6_promise_validation.2.2 cfgC2 "t" [] (some []) 0 .outOfFuel
      (by simp [flow_init, map_outputs_to_stages, map_outputs_to_stages_from,
        register_outputs, cfgC2, stageC2S, stageC2C, stageC2T, mkDS, lookupA, setA,
        filter_existing_deps, req_exists, fsExists, resolve_dependencies])

/-! ## C8: ownership uniqueness -/

/-- C8: building the output-ownership map fails with the duplicate-provider
configuration error whenever two distinct stages declare an output with the
same name; when no such cross-stage duplicate exists the construction
succeeds and maps every declared output name to its unique producing stage
(the same stage declaring a name twice is not an error).  Stages are
compared by value; in a flow configuration stage names are unique, so value
equality coincides with Python object identity. -/
theorem c8_ownership_uniqueness (stages : List Stage) :
    (∀ m, map_outputs_to_stages stages = .ok m →
      ∀ s ∈ stages, ∀ o ∈ s.produces, lookupA o.name m = some s) ∧
    ((∃ s, s ∈ stages ∧ ∃ s2, s2 ∈ stages ∧ s ≠ s2 ∧
        ∃ n, n ∈ s.produces.map DependencySpec.name ∧
          n ∈ s2.produces.map DependencySpec.name) →
      ∃ n a b, map_outputs_to_stages stages = .error (.duplicateProvider n a b)) ∧
    ((∀ s ∈ stages, ∀ s2 ∈ stages,
        (∃ n, n ∈ s.produces.map DependencySpec.name ∧
          n ∈ s2.produces.map DependencySpec.name) → s = s2) →
      ∃ m, map_outputs_to_stages stages = .ok m) := by
  refine ⟨?_, ?_, ?_⟩
  · intro m hm s hs o ho
    exact map_outputs_from_own stages [] m hm s hs o ho
  · rintro ⟨s, hs, s2, hs2, hne, n, hn1, hn2⟩
    rcases hm : map_outputs_to_stages stages with e | m
    · rcases map_outputs_from_err stages [] e hm with ⟨n2, a, b, he⟩
      exact ⟨n2, a, b, by rw [he]⟩
    · exfalso
      rcases List.mem_map.mp hn1 with ⟨o1, ho1, hon1⟩
      rcases List.mem_map.mp hn2 with ⟨o2, ho2, hon2⟩
      have h1 := map_outputs_from_own stages [] m hm s hs o1 ho1
      have h2 := map_outputs_from_own stages [] m hm s2 hs2 o2 ho2
      rw [hon1] at h1
      rw [hon2] at h2
      rw [h1] at h2
      exact hne (Option.some.inj h2)
  · intro hnd
    exact map_outputs_from_no_err stages hnd stages [] (fun s hs => hs)
      (fun k s hk => by cases hk)

/-- C8 witness: at concrete inputs, the duplicate pair (stageC2S and
stageC7A both declare output y) raises the configuration error, and the
duplicate-free stage list of cfgC2 builds successfully. -/
theorem c8_ownership_uniqueness_witness :
    (∃ n a b, map_outputs_to_stages [stageC2S, stageC7A] =
      .error (.duplicateProvider n a b)) ∧
    (∃ m, map_outputs_to_stages cfgC2.stages = .ok m) :=
  ⟨(c8_ownership_uniqueness [stageC2S, stageC7A]).2.1
      ⟨stageC2S, by decide, stageC7A, by decide, by decide, "y", by decide, by decide⟩,
   (c8_ownership_uniqueness cfgC2.stages).2.2 (by decide)⟩

/-! ## C10: totality domain of the existence check -/

/-- C10: `req_exists` is total exactly over path values built from strings
and lists: on such values it returns the conjunction of existence over all
leaf paths (true for the empty list), while a named mapping or None raises;
consequently a resolved dependency that is a named mapping aborts both the
execution-time existence check in `_build_dep` and the planning-time check
in `_resolve_dependencies`. -/
theorem c10_req_exists_totality :
    (∀ (fs : Fs) (d : DepPath), specStrListOnly d = true →
      req_exists fs d = .ok (specAllExists fs d)) ∧
    (∀ (fs : Fs) (ps : List (String × DepPath)),
      req_exists fs (.named ps) = .error .reqTypeError) ∧
    (∀ fs : Fs, req_exists_opt fs none = .error .reqTypeError) ∧
    (∀ fs : Fs, req_exists fs (.seq []) = .ok true) ∧
    (∀ (cfg : FlowConfig) (fuel : Nat) (dep : String) (st : FlowState)
        (ps : List (String × DepPath)),
      (lookupA dep st.dep_paths).join = some (.named ps) →
      (DepPath.named ps).truthy = true →
      build_dep cfg (fuel + 1) dep st = .error .reqTypeError) ∧
    (∀ (cfg : FlowConfig) (fuel : Nat) (provider : Stage) (take : DependencySpec)
        (rest : List DependencySpec) (st0 st : FlowState) (ps : List (String × DepPath)),
      resolve_dependencies cfg fuel take.name st0 = .ok st →
      (lookupA take.name st.dep_paths).join = some (.named ps) →
      (DepPath.named ps).truthy = true →
      resolve_takes cfg (fuel + 1) provider (take :: rest) st0 = .error .reqTypeError) := by
  refine ⟨fun fs d h => req_exists_of_strList fs d h, fun fs ps => rfl, fun fs => rfl,
    fun fs => rfl, ?_, ?_⟩
  · intro cfg fuel dep st ps hjoin htruthy
    have hj : (lookupA dep st.dep_paths).bind (fun a => a) = some (.named ps) := by
      simpa [Option.join] using hjoin
    simp [build_dep, hj, htruthy, req_exists]
  · intro cfg fuel provider take rest st0 st ps hres hjoin htruthy
    have hj : (lookupA take.name st.dep_paths).bind (fun a => a) = some (.named ps) := by
      simpa [Option.join] using hjoin
    simp [resolve_takes, hres, hj, htruthy, truthyO, will_cause_rebuild, req_exists]

/-- C10 witness: the theorem applied at concrete inputs, discharging each
hypothesis: a mixed string-and-list value evaluates to the conjunction, the
empty list checks true, and a truthy named value aborts the build step. -/
theorem c10_req_exists_totality_witness :
    (req_exists [("a", 1)] (.seq [.single "a", .single "b"]) =
      .ok (specAllExists [("a", 1)] (.seq [.single "a", .single "b"])) ∧
     specAllExists [("a", 1)] (.seq [.single "a", .single "b"]) = false) ∧
    req_exists [] (.seq []) = .ok true ∧
    build_dep cfgC2 1 "d"
      { os_map := [], dep_paths := [("d", some (.named [("k", .single "q")]))]
        run_stages := [], deps_rebuilds := [], value_overrides := []
        stages_checked := [], skip_dep_warnings := [], fs := []
        f4cache := none, diags := [], execs := [] } = .error .reqTypeError := by
  refine ⟨⟨c10_req_exists_totality.1 [("a", 1)] _ (by decide), ?_⟩,
    c10_req_exists_totality.2.2.2.1 [], ?_⟩
  · simp [specAllExists, specAllExists_list, fsExists, lookupA]
  · exact c10_req_exists_totality.2.2.2.2.1 cfgC2 0 "d" _ [("k", .single "q")]
      (by simp [lookupA]) (by simp [DepPath.truthy])

end F4PGA
